import Mathlib

/-!
# avito-shop: the transactional ledger core

A shallow embedding of `internal/app/repository/shopping.go`
(`ShoppingRepository.SendCoin`, `ShoppingRepository.Buy`), of the error values of
`internal/app/apierror/apierror.go`, of `internal/app/service/shop.go` and of the
request validation in `internal/app/handler/shop.go`.

The relational store is a record of four tables, each a list of rows in
insertion order.  A database transaction is a pair of the committed contents
and the working copy seen by the statements of the transaction.  Every
statement may fail with a driver error chosen by the environment of the call
(`Env.fault`), which also covers constraint violations and range errors raised
by the store.  Go `int` values are unbounded `Int`s: the code performs no
arithmetic on them itself, only comparisons; the arithmetic happens in SQL.
-/

namespace AvitoShop

/-! ## Errors (`apierror`) -/

/-- The exported fields of `apierror.APIError`: the HTTP status and the message. -/
structure APIError where
  Status : Nat
  Message : String
deriving DecidableEq, Repr

/-- Go error values as they occur in the repository: `sql.ErrNoRows`, any other
error made by the driver or by `errors.New`, an error wrapped with a message
(`errors.Wrapf`, `fmt.Errorf` with `%w`), and an `APIError` value together with
its `wrapped` cause. -/
inductive GoError where
  | errNoRows : GoError
  | driver (msg : String) : GoError
  | wrapf (inner : GoError) (msg : String) : GoError
  | api (e : APIError) (wrapped : GoError) : GoError
deriving DecidableEq, Repr

def InternalError : APIError := ⟨500, "internal error"⟩
def UnauthorizedError : APIError := ⟨401, "unauthorized"⟩
def BadRequestError : APIError := ⟨400, "bad request error"⟩
def InvalidItemError : APIError := ⟨400, "no such item exists"⟩
def NotEnoughMoneyError : APIError := ⟨400, "not enough money"⟩

/-- The function `NewAPIError(apiErr, err)`: the given kind with `wrapped = err`. -/
def NewAPIError (apiErr : APIError) (err : GoError) : GoError :=
  .api apiErr err

/-- The function `NewAPIErrorWithMsg(apiErr, msg)`: the given kind with
`wrapped = errors.New(msg)`. -/
def NewAPIErrorWithMsg (apiErr : APIError) (msg : String) : GoError :=
  .api apiErr (.driver msg)

/-- The function `GetAPIError(err)`: `errors.As` walks the `Unwrap` chain and
yields the first `APIError` it meets, else `InternalError`. -/
def GetAPIError : GoError → APIError
  | .api e _ => e
  | .wrapf inner _ => GetAPIError inner
  | .errNoRows => InternalError
  | .driver _ => InternalError

/-- The test `errors.Is(err, sql.ErrNoRows)` along the `Unwrap` chain. -/
def isErrNoRows : GoError → Bool
  | .errNoRows => true
  | .driver _ => false
  | .wrapf inner _ => isErrNoRows inner
  | .api _ wrapped => isErrNoRows wrapped

/-! ## The store -/

/-- A row of table `users`: `(username, password_hash, balance)`. -/
structure UserRow where
  username : String
  password_hash : String
  balance : Int
deriving DecidableEq, Repr

/-- A row of table `items`: `(type, price)`. -/
structure ItemRow where
  type : String
  price : Int
deriving DecidableEq, Repr

/-- A row of table `transactions`: `(sender, receiver, amount)` as inserted by
`SendCoin`, and the column `created_at` that `HistoryRepository` orders by and
that the store fills in on insert. -/
structure TransactionRow where
  sender : String
  receiver : String
  amount : Int
  created_at : Nat
deriving DecidableEq, Repr

/-- A row of table `purchases`: `(username, item, quantity)`. -/
structure PurchaseRow where
  username : String
  item : String
  quantity : Int
deriving DecidableEq, Repr

/-- Modelled from the spec: the table declarations (`migrations/init.sql`), which
the repository code relies on but which are not among the sources.  Four tables
(spec §6) holding the rows of §3; the only constraints §3 gives are the keys
(`identity` unique, `(owner, item)` unique), stated below as `UsersUnique` and
`PurchasesUnique`.  Any further constraint of the real schema can only make a
statement fail, which `Env.fault` accounts for. -/
structure Store where
  users : List UserRow
  items : List ItemRow
  transactions : List TransactionRow
  purchases : List PurchaseRow
deriving DecidableEq, Repr

/-- The type `model.User`, the target of the `SELECT username, balance` scans. -/
structure User where
  Username : String
  Balance : Int
deriving DecidableEq, Repr

/-- The type `model.Send`, the body of a transfer request. -/
structure Send where
  ToUser : String
  Amount : Int
deriving DecidableEq, Repr

/-- The statements of the two transactions, in program order. -/
inductive Stmt where
  | begin
  | getUser
  | execSend
  | execReceive
  | execAddTransaction
  | getItemPrice
  | execBuy
  | execAddPurchases
  | commit
deriving DecidableEq, Repr

/-- What the store does during one call, beyond the contents of its tables:
`fault st = some msg` makes statement `st` fail with a driver error `msg`
(connection loss, constraint violation, cancelled context), and `now` is the
value the store gives `created_at` on insert. -/
structure Env where
  fault : Stmt → Option String
  now : Nat

/-- The environment in which no statement fails. -/
def Env.ok (now : Nat) : Env := ⟨fun _ => none, now⟩

/-- An open transaction (`*sqlx.Tx`): the committed contents and the working copy. -/
structure Tx where
  base : Store
  work : Store
deriving DecidableEq, Repr

/-- The call `db.Beginx()`. -/
def Beginx (s : Store) : Tx := ⟨s, s⟩

/-- The call `tx.Rollback()` on a transaction that is still open: the working
copy is dropped. -/
def Tx.Rollback (tx : Tx) : Store := tx.base

/-- The call `tx.Commit()` when it succeeds: the working copy becomes the
committed contents. -/
def Tx.Commit (tx : Tx) : Store := tx.work

/-- The query `SELECT username, balance FROM users WHERE username IN ($1, $2) FOR UPDATE`. -/
def lockedUsers (users : List UserRow) (a b : String) : List UserRow :=
  users.filter fun u => decide (u.username = a ∨ u.username = b)

/-- The query `querySelectForUpdate` of `SendCoin` run through `tx.Get`: the first row of
`SELECT username, balance FROM locked_users WHERE username = $3`, or `sql.ErrNoRows`. -/
def getLockedUser (users : List UserRow) (a b c : String) : Except GoError User :=
  match ((lockedUsers users a b).filter fun u => decide (u.username = c)).head? with
  | some u => .ok ⟨u.username, u.balance⟩
  | none => .error .errNoRows

/-- The query `SELECT username, balance FROM users WHERE username = $1 FOR UPDATE` of `Buy`
run through `tx.Get`. -/
def getUserForUpdate (users : List UserRow) (username : String) : Except GoError User :=
  match (users.filter fun u => decide (u.username = username)).head? with
  | some u => .ok ⟨u.username, u.balance⟩
  | none => .error .errNoRows

/-- The query `SELECT price FROM items WHERE type = $1 FOR SHARE` run through `tx.Get`. -/
def getItemPrice (items : List ItemRow) (item : String) : Except GoError Int :=
  match (items.filter fun i => decide (i.type = item)).head? with
  | some i => .ok i.price
  | none => .error .errNoRows

/-- The statement `UPDATE users SET balance = balance - $1 WHERE username = $2`. -/
def subBalance (users : List UserRow) (amount : Int) (username : String) : List UserRow :=
  users.map fun u => if u.username = username then { u with balance := u.balance - amount } else u

/-- The statement `UPDATE users SET balance = balance + $1 WHERE username = $2`. -/
def addBalance (users : List UserRow) (amount : Int) (username : String) : List UserRow :=
  users.map fun u => if u.username = username then { u with balance := u.balance + amount } else u

/-- The statement `INSERT INTO transactions VALUES ($1, $2, $3)`. -/
def insertTransaction (txs : List TransactionRow) (sender receiver : String) (amount : Int)
    (now : Nat) : List TransactionRow :=
  txs ++ [⟨sender, receiver, amount, now⟩]

/-- The statement `INSERT into purchases VALUES ($1, $2, 1) ON CONFLICT (username, item)
DO UPDATE SET quantity = purchases.quantity + 1`. -/
def upsertPurchase (ps : List PurchaseRow) (username item : String) : List PurchaseRow :=
  if ps.any (fun p => decide (p.username = username ∧ p.item = item)) then
    ps.map fun p =>
      if p.username = username ∧ p.item = item then { p with quantity := p.quantity + 1 } else p
  else ps ++ [⟨username, item, 1⟩]

/-! ## `ShoppingRepository` -/

/-- The method `ShoppingRepository.SendCoin`.  The result is the returned error (`none` for
`nil`) and the committed contents of the store after the call; the deferred
`tx.Rollback()` runs on every return path and is without effect after a
successful commit. -/
def ShoppingRepository.SendCoin (env : Env) (s : Store) (fromUsername toUsername : String) (amount : Int) :
    Option GoError × Store :=
  let op := "repository.shopping.SendCoin"
  match env.fault .begin with
  | some e =>
    (some (NewAPIError InternalError (.wrapf (.driver e) (op ++ ": (failed begin transaction)"))), s)
  | none =>
    let tx := Beginx s
    match (match env.fault .getUser with
           | some e => Except.error (GoError.driver e)
           | none => getLockedUser tx.work.users fromUsername toUsername fromUsername) with
    | .error err =>
      (some (NewAPIError InternalError (.wrapf err (op ++ ": (failed get user)"))), tx.Rollback)
    | .ok user =>
      if user.Balance < amount then
        (some (NewAPIErrorWithMsg NotEnoughMoneyError (op ++ ": (failed get user): not enough money")),
          tx.Rollback)
      else
        match env.fault .execSend with
        | some e =>
          (some (NewAPIError InternalError (.wrapf (.driver e) (op ++ ": (failed send money)"))),
            tx.Rollback)
        | none =>
          let tx : Tx := { tx with work := { tx.work with
            users := subBalance tx.work.users amount fromUsername } }
          match env.fault .execReceive with
          | some e =>
            (some (NewAPIError InternalError (.wrapf (.driver e) (op ++ ": (failed receive money)"))),
              tx.Rollback)
          | none =>
            let tx : Tx := { tx with work := { tx.work with
              users := addBalance tx.work.users amount toUsername } }
            match env.fault .execAddTransaction with
            | some e =>
              (some (NewAPIError InternalError
                (.wrapf (.driver e) (op ++ ": (failed save transaction)"))), tx.Rollback)
            | none =>
              let tx : Tx := { tx with work := { tx.work with
                transactions :=
                  insertTransaction tx.work.transactions fromUsername toUsername amount env.now } }
              match env.fault .commit with
              | some e =>
                (some (NewAPIError InternalError (.wrapf (.driver e) (op ++ ": (failed commit)"))),
                  tx.Rollback)
              | none => (none, tx.Commit)

/-- The method `ShoppingRepository.Buy`, with the same conventions as
`ShoppingRepository.SendCoin`. -/
def ShoppingRepository.Buy (env : Env) (s : Store) (username item : String) : Option GoError × Store :=
  let op := "repository.shopping.Buy"
  match env.fault .begin with
  | some e =>
    (some (NewAPIError InternalError (.wrapf (.driver e) (op ++ ": (failed begin transaction)"))), s)
  | none =>
    let tx := Beginx s
    match (match env.fault .getItemPrice with
           | some e => Except.error (GoError.driver e)
           | none => getItemPrice tx.work.items item) with
    | .error err =>
      if isErrNoRows err then
        (some (NewAPIError InvalidItemError (.wrapf err (op ++ ": (failed find item)"))), tx.Rollback)
      else
        (some (NewAPIError InternalError (.wrapf err (op ++ ": (failed get item)"))), tx.Rollback)
    | .ok itemPrice =>
      match (match env.fault .getUser with
             | some e => Except.error (GoError.driver e)
             | none => getUserForUpdate tx.work.users username) with
      | .error err =>
        (some (NewAPIError InternalError (.wrapf err (op ++ ": (failed get user)"))), tx.Rollback)
      | .ok user =>
        if user.Balance < itemPrice then
          (some (NewAPIErrorWithMsg NotEnoughMoneyError
            (op ++ ": (failed get user): not enough money")), tx.Rollback)
        else
          match env.fault .execBuy with
          | some e =>
            (some (NewAPIError InternalError (.wrapf (.driver e) (op ++ ": (failed buy item)"))),
              tx.Rollback)
          | none =>
            let tx : Tx := { tx with work := { tx.work with
              users := subBalance tx.work.users itemPrice username } }
            match env.fault .execAddPurchases with
            | some e =>
              (some (NewAPIError InternalError
                (.wrapf (.driver e) (op ++ ": (failed save purchas)"))), tx.Rollback)
            | none =>
              let tx : Tx := { tx with work := { tx.work with
                purchases := upsertPurchase tx.work.purchases username item } }
              match env.fault .commit with
              | some e =>
                (some (NewAPIError InternalError (.wrapf (.driver e) (op ++ ": (failed commit)"))),
                  tx.Rollback)
              | none => (none, tx.Commit)

/-- The sequential calls on the ledger: one call of `ShoppingRepository.SendCoin` or of
`ShoppingRepository.Buy`, each with the environment it runs in. -/
inductive Op where
  | sendCoin (env : Env) (fromUsername toUsername : String) (amount : Int)
  | buy (env : Env) (username item : String)

/-- Run one call: the returned error and the store after it. -/
def Op.run (s : Store) : Op → Option GoError × Store
  | .sendCoin env a b amount => ShoppingRepository.SendCoin env s a b amount
  | .buy env u i => ShoppingRepository.Buy env s u i

/-- The store after a sequence of calls run one after the other. -/
def runOps (s : Store) : List Op → Store
  | [] => s
  | op :: ops => runOps (op.run s).2 ops

/-- The number of calls `Buy(username, item)` of the sequence that returned `nil`. -/
def buySuccesses (username item : String) : Store → List Op → Nat
  | _, [] => 0
  | s, op :: ops =>
    (match op with
      | .buy _ u i => if u = username ∧ i = item ∧ (op.run s).1 = none then 1 else 0
      | .sendCoin _ _ _ _ => 0) + buySuccesses username item (op.run s).2 ops

/-! ## Observations on the store -/

/-- The balance stored for `username`, if it has an account (`SELECT balance FROM users
WHERE username = $1`). -/
def balanceOf (users : List UserRow) (username : String) : Option Int :=
  (users.find? fun u => decide (u.username = username)).map (·.balance)

/-- The price of `item` in the catalog, if it is there. -/
def priceOf (items : List ItemRow) (item : String) : Option Int :=
  (items.find? fun i => decide (i.type = item)).map (·.price)

/-- The purchase records of the pair `(username, item)`. -/
def purchasesOf (ps : List PurchaseRow) (username item : String) : List PurchaseRow :=
  ps.filter fun p => decide (p.username = username ∧ p.item = item)

/-- The quantity recorded for the pair `(username, item)`, if there is a record. -/
def quantityOf (ps : List PurchaseRow) (username item : String) : Option Int :=
  (purchasesOf ps username item).head?.map (·.quantity)

/-- The sum of all account balances. -/
def totalBalance (users : List UserRow) : Int :=
  (users.map (·.balance)).sum

/-- The key of table `users`: no two rows share a username. -/
def UsersUnique (users : List UserRow) : Prop :=
  (users.map (·.username)).Nodup

/-- The key of table `purchases`: no two rows share `(username, item)`. -/
def PurchasesUnique (ps : List PurchaseRow) : Prop :=
  (ps.map fun p => (p.username, p.item)).Nodup

/-- Every account balance is at least zero. -/
def NonNegative (users : List UserRow) : Prop :=
  ∀ u ∈ users, 0 ≤ u.balance

/-- The calls the no-negative-balance property speaks of: any `Buy`, and `SendCoin`
with a positive amount. -/
def Op.PositiveAmount : Op → Prop
  | .sendCoin _ _ _ amount => 0 < amount
  | .buy _ _ _ => True

/-! ## `ShopService` and the handler -/

/-- The method `ShopService.SendCoin`: the repository call, its error wrapped with the
operation name. -/
def ShopService.SendCoin (env : Env) (s : Store) (username : String) (send : Send) :
    Option GoError × Store :=
  match ShoppingRepository.SendCoin env s username send.ToUser send.Amount with
  | (some err, s') => (some (.wrapf err "service.shop.SendCoin"), s')
  | (none, s') => (none, s')

/-- The method `ShopService.Buy`. -/
def ShopService.Buy (env : Env) (s : Store) (username item : String) : Option GoError × Store :=
  match ShoppingRepository.Buy env s username item with
  | (some err, s') => (some (.wrapf err "service.shop.Buy"), s')
  | (none, s') => (none, s')

/-- The function `validateSendCoinInput` of the handler (`none` for `nil`). -/
def validateSendCoinInput (input : Send) (username : String) : Option GoError :=
  if input.Amount ≤ 0 then
    some (NewAPIErrorWithMsg BadRequestError "invalid amount of coin")
  else if input.ToUser = "" then
    some (NewAPIErrorWithMsg BadRequestError "empty receiver")
  else if username = input.ToUser then
    some (NewAPIErrorWithMsg BadRequestError "can't send to yourself")
  else none

/-- A value stored in the request context under a key. -/
inductive CtxValue where
  | str (s : String)
  | other
deriving DecidableEq, Repr

/-- The function `getUsername`: the `username` field of the request context
(`none` when the field is not set). -/
def getUsername (ctx : Option CtxValue) : Except GoError String :=
  match ctx with
  | none => .error (NewAPIErrorWithMsg UnauthorizedError "username field not found in context")
  | some .other => .error (NewAPIErrorWithMsg UnauthorizedError "username is not a string type")
  | some (.str username) =>
    if username = "" then .error (NewAPIErrorWithMsg UnauthorizedError "empty username")
    else .ok username

/-- The HTTP response: the status and, for an error, the `message` field of the body. -/
structure Response where
  status : Nat
  message : Option String
deriving DecidableEq, Repr

/-- The function `LogAndRespondError`: status and message of the classified error. -/
def LogAndRespondError (err : GoError) : Response :=
  ⟨(GetAPIError err).Status, some (GetAPIError err).Message⟩

/-- The method `Handler.SendCoin`, from the request context and the outcome of
`ctx.ShouldBindJSON(&input)` (the bound body, or the binding error). -/
def Handler.SendCoin (env : Env) (s : Store) (ctx : Option CtxValue) (body : Except GoError Send) :
    Response × Store :=
  let op := "handler.shop.SendCoin"
  match getUsername ctx with
  | .error err => (LogAndRespondError (.wrapf err (op ++ ": error while getting username")), s)
  | .ok username =>
    match body with
    | .error err =>
      (LogAndRespondError (NewAPIError BadRequestError
        (.wrapf err (op ++ ": error while getting data from request body"))), s)
    | .ok input =>
      match validateSendCoinInput input username with
      | some err => (LogAndRespondError (.wrapf err (op ++ ": error while validating input")), s)
      | none =>
        match ShopService.SendCoin env s username input with
        | (some err, s') => (LogAndRespondError (.wrapf err (op ++ ": error while getting info")), s')
        | (none, s') => (⟨200, none⟩, s')

/-! ## Error text and classification -/

/-- The kind `apierror.WrongPasswordError`. -/
def WrongPasswordError : APIError := ⟨401, "wrong password"⟩

/-- The method `Error()`: an `APIError` prints its message, then `": "` and the text of
its wrapped cause; `errors.Wrapf` and `fmt.Errorf("%s: %w", ...)` print the added
message, then `": "` and the text of the cause. -/
def GoError.Error : GoError → String
  | .errNoRows => "sql: no rows in result set"
  | .driver msg => msg
  | .wrapf inner msg => msg ++ ": " ++ inner.Error
  | .api e wrapped => e.Message ++ ": " ++ wrapped.Error

/-- Whether `errors.As(err, new(APIError))` succeeds: the `Unwrap` chain of `err` holds
an `APIError`. -/
def hasAPIError : GoError → Bool
  | .api _ _ => true
  | .wrapf inner _ => hasAPIError inner
  | .errNoRows => false
  | .driver _ => false

/-- The interface `ShopService` of the handler as far as `SendCoin` goes: any function
from the store, the username and the request body to an error and a store. -/
abbrev SendCoinService := Store → String → Send → Option GoError × Store

/-- The method `Handler.SendCoin` over an arbitrary implementation `svc` of its
`shopService` field. -/
def Handler.SendCoinWith (svc : SendCoinService) (s : Store) (ctx : Option CtxValue)
    (body : Except GoError Send) : Response × Store :=
  let op := "handler.shop.SendCoin"
  match getUsername ctx with
  | .error err => (LogAndRespondError (.wrapf err (op ++ ": error while getting username")), s)
  | .ok username =>
    match body with
    | .error err =>
      (LogAndRespondError (NewAPIError BadRequestError
        (.wrapf err (op ++ ": error while getting data from request body"))), s)
    | .ok input =>
      match validateSendCoinInput input username with
      | some err => (LogAndRespondError (.wrapf err (op ++ ": error while validating input")), s)
      | none =>
        match svc s username input with
        | (some err, s') => (LogAndRespondError (.wrapf err (op ++ ": error while getting info")), s')
        | (none, s') => (⟨200, none⟩, s')

/-! ## `HistoryRepository` and `InfoRepository` -/

/-- The type `model.Receive`, an entry of the received history. -/
structure Receive where
  FromUser : String
  Amount : Int
deriving DecidableEq, Repr

/-- The clause `ORDER BY created_at`, as a stable sort.  (Where two rows share a
timestamp SQL leaves their order open; `IsOrderedByCreatedAt` below gives every
admissible answer.) -/
def orderByCreatedAt (rows : List TransactionRow) : List TransactionRow :=
  rows.insertionSort fun x y => x.created_at ≤ y.created_at

/-- An answer the store may give to `SELECT ... ORDER BY created_at` over the rows
`rows`: the same rows, in ascending order of `created_at`. -/
def IsOrderedByCreatedAt (rows out : List TransactionRow) : Prop :=
  out.Perm rows ∧ out.Sorted fun x y => x.created_at ≤ y.created_at

/-- The method `HistoryRepository.GetCoinReceivedHistory`: `SELECT sender, amount FROM
transactions WHERE receiver = $1 ORDER BY created_at`; `fault` is the error of
`db.Select`, if it fails. -/
def HistoryRepository.GetCoinReceivedHistory (fault : Option String) (s : Store)
    (username : String) : Except GoError (List Receive) :=
  match fault with
  | some e =>
    .error (NewAPIError InternalError (.wrapf (.driver e)
      "repository.history.GetCoinReceivedHistory: (failed get user's received history)"))
  | none =>
    .ok ((orderByCreatedAt (s.transactions.filter fun t => decide (t.receiver = username))).map
      fun t => ⟨t.sender, t.amount⟩)

/-- The method `HistoryRepository.GetCoinSentHistory`: `SELECT receiver, amount FROM
transactions WHERE sender = $1 ORDER BY created_at`. -/
def HistoryRepository.GetCoinSentHistory (fault : Option String) (s : Store)
    (username : String) : Except GoError (List Send) :=
  match fault with
  | some e =>
    .error (NewAPIError InternalError (.wrapf (.driver e)
      "repository.history.GetCoinSentHistory: (failed get user's sent history)"))
  | none =>
    .ok ((orderByCreatedAt (s.transactions.filter fun t => decide (t.sender = username))).map
      fun t => ⟨t.receiver, t.amount⟩)

/-- The records committed by the calls of a sequence, in the order of the calls: one
record for every `SendCoin` that returned `nil`. -/
def committedRecords : Store → List Op → List TransactionRow
  | _, [] => []
  | s, op :: ops =>
    (match op with
      | .sendCoin env a b amount => if (op.run s).1 = none then [⟨a, b, amount, env.now⟩] else []
      | .buy _ _ _ => []) ++ committedRecords (op.run s).2 ops

/-- The record a call writes when it returns `nil`. -/
def Op.record : Op → List TransactionRow
  | .sendCoin env a b amount => [⟨a, b, amount, env.now⟩]
  | .buy _ _ _ => []

/-- The records of the calls of a sequence, in the order of the calls. -/
def recordsOf : List Op → List TransactionRow
  | [] => []
  | op :: ops => op.record ++ recordsOf ops

/-- Every call of the sequence returns `nil`. -/
def allSucceed : Store → List Op → Prop
  | _, [] => True
  | s, op :: ops => (op.run s).1 = none ∧ allSucceed (op.run s).2 ops

/-- The method `InfoRepository.GetCoinsAmount`: `SELECT balance FROM users WHERE username = $1`
through `db.Get`; `fault` is the error of the driver, if it fails.  (On an error Go
returns the balance 0 beside it.) -/
def InfoRepository.GetCoinsAmount (fault : Option String) (s : Store) (username : String) :
    Except GoError Int :=
  match (match fault with
         | some e => Except.error (GoError.driver e)
         | none =>
           match balanceOf s.users username with
           | some balance => Except.ok balance
           | none => Except.error GoError.errNoRows) with
  | .error err =>
    .error (NewAPIError InternalError
      (.wrapf err "repository.info.GetCoinsAmount: (failed get user's balance)"))
  | .ok balance => .ok balance

/-! ## `AuthRepository` -/

/-- The type `model.AuthDB`, the target of the `SELECT username, password_hash` scan. -/
structure AuthDB where
  Username : String
  PasswordHash : String
deriving DecidableEq, Repr

/-- What surrounds one call of `AuthRepository.Auth`: the error of `db.Get` and of
`db.Exec`, if they fail, and the value of the variable `MONEY_FOR_START`. -/
structure AuthEnv where
  getFault : Option String
  execFault : Option String
  moneyForStart : String

/-- The function `strconv.Atoi`: an optional sign, then one or more decimal digits, the
value within the range of a 64-bit `int`; `none` for an error. -/
def Atoi (s : String) : Option Int :=
  let digits : List Char :=
    match s.toList with
    | '-' :: r => r
    | '+' :: r => r
    | r => r
  if digits.isEmpty ∨ ¬ digits.all Char.isDigit then none
  else
    let n : Nat := digits.foldl (fun acc c => acc * 10 + (c.toNat - '0'.toNat)) 0
    let v : Int := if s.toList.head? = some '-' then -(n : Int) else (n : Int)
    if v < -(2 : Int) ^ 63 ∨ (2 : Int) ^ 63 - 1 < v then none else some v

/-- The query `SELECT username, password_hash FROM users WHERE username = $1` through
`db.Get`. -/
def getAuthUser (users : List UserRow) (username : String) : Except GoError AuthDB :=
  match (users.filter fun u => decide (u.username = username)).head? with
  | some u => .ok ⟨u.username, u.password_hash⟩
  | none => .error .errNoRows

/-- The method `AuthRepository.createNewUser`: `INSERT INTO users VALUES ($1, $2, $3)` with
the starting balance read from `MONEY_FOR_START`. -/
def AuthRepository.createNewUser (env : AuthEnv) (s : Store) (username passwordHash : String) :
    Option GoError × Store :=
  let op := "repository.auth.createNewUser"
  match Atoi env.moneyForStart with
  | none =>
    (some (NewAPIError InternalError
      (.wrapf (.driver "strconv.Atoi: parsing error") (op ++ ": (MONEY_FOR_START must be numeric)"))),
      s)
  | some moneyForStart =>
    match env.execFault with
    | some e =>
      (some (NewAPIError InternalError (.wrapf (.driver e) (op ++ ": (failed sign up user)"))), s)
    | none => (none, { s with users := s.users ++ [⟨username, passwordHash, moneyForStart⟩] })

/-- The method `AuthRepository.Auth`. -/
def AuthRepository.Auth (env : AuthEnv) (s : Store) (username passwordHash : String) :
    Option GoError × Store :=
  let op := "repository.auth.Auth"
  match (match env.getFault with
         | some e => Except.error (GoError.driver e)
         | none => getAuthUser s.users username) with
  | .error err =>
    if isErrNoRows err then AuthRepository.createNewUser env s username passwordHash
    else (some (NewAPIError InternalError (.wrapf err (op ++ ": (failed get user)"))), s)
  | .ok user =>
    if passwordHash ≠ user.PasswordHash then
      (some (NewAPIErrorWithMsg WrongPasswordError
        (op ++ ": (failed sign in user): wrong password")), s)
    else (none, s)

/-- The password hash stored for `username`, if it has an account. -/
def passwordHashOf (users : List UserRow) (username : String) : Option String :=
  (users.find? fun u => decide (u.username = username)).map (·.password_hash)

/-- All calls that write to the store: the two of `ShoppingRepository` and
`AuthRepository.Auth`. -/
inductive Call where
  | shop (op : Op)
  | auth (env : AuthEnv) (username passwordHash : String)

/-- Run one call: the returned error and the store after it. -/
def Call.run (s : Store) : Call → Option GoError × Store
  | .shop op => op.run s
  | .auth env username passwordHash => AuthRepository.Auth env s username passwordHash

/-- The store after a sequence of calls of any kind. -/
def runCalls (s : Store) : List Call → Store
  | [] => s
  | c :: cs => runCalls (c.run s).2 cs

/-! ## `ShopService.GetInfo` and `Handler.Buy` -/

/-- The type `model.Item`, an entry of the inventory; `ItemType` is its field `Type`. -/
structure Item where
  ItemType : String
  Quantity : Int
deriving DecidableEq, Repr

/-- The type `model.CoinHistory`. -/
structure CoinHistory where
  Received : List Receive
  Sent : List Send
deriving DecidableEq, Repr

/-- The type `model.InfoOutput`; its zero value has 0 coins and `nil` slices. -/
structure InfoOutput where
  Coins : Int
  Inventory : List Item
  CoinHistory : CoinHistory
deriving DecidableEq, Repr

/-- The zero value `model.InfoOutput{}`. -/
def InfoOutput.zero : InfoOutput := ⟨0, [], ⟨[], []⟩⟩

/-- The method `InfoRepository.GetInventory`: `SELECT item, quantity FROM purchases WHERE
username = $1` through `db.Select`; `fault` is the error of the driver, if it fails. -/
def InfoRepository.GetInventory (fault : Option String) (s : Store) (username : String) :
    Except GoError (List Item) :=
  match fault with
  | some e =>
    .error (NewAPIError InternalError (.wrapf (.driver e)
      "repository.info.GetInventory: (failed get user's inventory)"))
  | none =>
    .ok ((s.purchases.filter fun p => decide (p.username = username)).map
      fun p => ⟨p.item, p.quantity⟩)

/-- The method `ShopService.GetInfo` over arbitrary implementations of the four reads of
its `infoRepository` and `historyRepository` fields. -/
def ShopService.GetInfoWith (getCoinsAmount : String → Except GoError Int)
    (getInventory : String → Except GoError (List Item))
    (getCoinReceivedHistory : String → Except GoError (List Receive))
    (getCoinSentHistory : String → Except GoError (List Send)) (username : String) :
    InfoOutput × Option GoError :=
  let op := "service.shop.GetInfo"
  match getCoinsAmount username with
  | .error err => (InfoOutput.zero, some (.wrapf err op))
  | .ok coins =>
    match getInventory username with
    | .error err => (InfoOutput.zero, some (.wrapf err op))
    | .ok inventory =>
      match getCoinReceivedHistory username with
      | .error err => (InfoOutput.zero, some (.wrapf err op))
      | .ok received =>
        match getCoinSentHistory username with
        | .error err => (InfoOutput.zero, some (.wrapf err op))
        | .ok sent => (⟨coins, inventory, ⟨received, sent⟩⟩, none)

/-- The errors of the four reads of `GetInfo`, where they fail. -/
structure InfoEnv where
  coinsFault : Option String
  inventoryFault : Option String
  receivedFault : Option String
  sentFault : Option String

/-- The method `ShopService.GetInfo` over the repositories of this package. -/
def ShopService.GetInfo (env : InfoEnv) (s : Store) (username : String) :
    InfoOutput × Option GoError :=
  ShopService.GetInfoWith (InfoRepository.GetCoinsAmount env.coinsFault s)
    (InfoRepository.GetInventory env.inventoryFault s)
    (HistoryRepository.GetCoinReceivedHistory env.receivedFault s)
    (HistoryRepository.GetCoinSentHistory env.sentFault s) username

/-- The interface `ShopService` of the handler as far as `Buy` goes. -/
abbrev BuyService := Store → String → String → Option GoError × Store

/-- The method `Handler.Buy` over an arbitrary implementation `svc` of its `shopService`
field; `item` is `ctx.Param("item")`. -/
def Handler.BuyWith (svc : BuyService) (s : Store) (ctx : Option CtxValue) (item : String) :
    Response × Store :=
  let op := "handler.shop.Buy"
  match getUsername ctx with
  | .error err => (LogAndRespondError (.wrapf err (op ++ ": error while getting username")), s)
  | .ok username =>
    if item = "" then
      (LogAndRespondError (NewAPIErrorWithMsg InvalidItemError (op ++ ": empty item")), s)
    else
      match svc s username item with
      | (some err, s') => (LogAndRespondError (.wrapf err (op ++ ": error while buying item")), s')
      | (none, s') => (⟨200, none⟩, s')

/-- The method `Handler.Buy` over `ShopService.Buy`. -/
def Handler.Buy (env : Env) (s : Store) (ctx : Option CtxValue) (item : String) :
    Response × Store :=
  Handler.BuyWith (ShopService.Buy env) s ctx item

/-! ## The handler of `/api/auth`: header and input checks -/

def BadAuthHeaderError : APIError := ⟨401, "empty or invalid authorization header"⟩
def BadTokenError : APIError := ⟨401, "empty or invalid token"⟩
def InvalidAuthInput : APIError := ⟨400, "invalid username or password"⟩

/-- The bytes of a Go string: the UTF-8 encoding of its characters. -/
def utf8Bytes (s : String) : List Nat :=
  go s.toList
where
  /-- The encoding, character by character. -/
  go : List Char → List Nat
    | [] => []
    | c :: cs => (String.utf8EncodeChar c).map UInt8.toNat ++ go cs

/-- The builtin `len` on a Go string: its number of bytes. -/
def len (s : String) : Nat := (utf8Bytes s).length

/-- The type `model.AuthInput`. -/
structure AuthInput where
  Username : String
  Password : String
deriving DecidableEq, Repr

/-- The function `validateAuthInput` (`none` for `nil`). -/
def validateAuthInput (input : AuthInput) : Option GoError :=
  if input.Username = "" then
    some (NewAPIErrorWithMsg InvalidAuthInput "empty username")
  else if input.Password = "" then
    some (NewAPIErrorWithMsg InvalidAuthInput "empty password")
  else if len input.Password < 6 then
    some (NewAPIErrorWithMsg InvalidAuthInput
      "password is too short, it must be at least 6 characters long")
  else none

/-- The parts of a list of characters between the occurrences of `sep`. -/
def splitChars (sep : Char) : List Char → List (List Char)
  | [] => [[]]
  | c :: cs =>
    if c = sep then [] :: splitChars sep cs
    else
      match splitChars sep cs with
      | [] => [[c]]
      | p :: ps => (c :: p) :: ps

/-- The function `strings.Split(s, sep)` for a separator of one character. -/
def stringsSplit (s : String) (sep : Char) : List String :=
  (splitChars sep s.toList).map String.mk

/-- The function `getTokenFromHeader`: the token and the error (`none` for `nil`). -/
def getTokenFromHeader (header : String) : String × Option GoError :=
  if header = "" then
    ("", some (NewAPIErrorWithMsg BadAuthHeaderError "empty Authorization header"))
  else
    match stringsSplit header ' ' with
    | [p0, p1] =>
      if p0 ≠ "Bearer" then ("", some (NewAPIErrorWithMsg BadAuthHeaderError "no token"))
      else if len p1 = 0 then ("", some (NewAPIErrorWithMsg BadAuthHeaderError "empty token"))
      else (p1, none)
    | _ => ("", some (NewAPIErrorWithMsg BadAuthHeaderError "no token"))

/-! ## `AuthService`: password hash and tokens -/

/-- One lowercase hexadecimal digit. -/
def hexDigit (n : Nat) : Char := Nat.digitChar (n % 16)

/-- The verb `%x` on a byte slice: two lowercase hexadecimal digits for every byte. -/
def hexChars : List Nat → List Char
  | [] => []
  | b :: bs => hexDigit (b / 16) :: hexDigit (b % 16) :: hexChars bs

/-- The function `generatePasswordHash`.  `digest` stands for SHA3-256, a function of
the `golang.org/x/crypto` library from the bytes written to the 32 bytes of their
digest; `salt` is the value of `PASSWORD_SALT`.  The call `hash.Sum([]byte(salt))`
appends the digest of what has been written, the password, to the bytes of the salt. -/
def generatePasswordHash (digest : List Nat → List Nat) (salt : String) (password : String) :
    String × Option GoError :=
  if salt = "" then ("", some (NewAPIErrorWithMsg InternalError "salt is empty"))
  else (String.mk (hexChars (utf8Bytes salt ++ digest (utf8Bytes password))), none)

/-- The fields of `jwt.StandardClaims` that `GenerateToken` sets; the others keep their
zero value. -/
structure StandardClaims where
  ExpiresAt : Int
  IssuedAt : Int
  Id : String
deriving DecidableEq, Repr

/-- The signing method named in the header of a token, as far as the key function looks at
it: an HMAC method or another one. -/
inductive SigningMethod where
  | hmac
  | other
deriving DecidableEq, Repr

/-- The dynamic type of `t.Claims` after parsing. -/
inductive Claims where
  | standard (c : StandardClaims)
  | other
deriving DecidableEq, Repr

/-- The library `github.com/golang-jwt/jwt` as far as `AuthService` uses it:
`SignedString key claims` is `jwt.NewWithClaims(jwt.SigningMethodHS256, claims)
.SignedString([]byte(key))`, and `ParseWithClaims token keyFunc now` is
`jwt.ParseWithClaims(token, &jwt.StandardClaims{}, keyFunc)` run at Unix time `now`
(seconds), where `keyFunc` receives the signing method of the token. -/
structure JWTLib where
  SignedString : String → StandardClaims → Except GoError String
  ParseWithClaims : String → (SigningMethod → Except GoError String) → Int → Except GoError Claims

/-- The check `StandardClaims.Valid()` of the library at Unix time `now`: a claim left at
zero is not checked, else the token must not be expired nor used before it was issued. -/
def StandardClaims.validAt (c : StandardClaims) (now : Int) : Prop :=
  (c.ExpiresAt = 0 ∨ now ≤ c.ExpiresAt) ∧ (c.IssuedAt = 0 ∨ c.IssuedAt ≤ now)

instance (c : StandardClaims) (now : Int) : Decidable (c.validAt now) := by
  unfold StandardClaims.validAt; infer_instance

/-- What `AuthService` relies on in the library: signing with an HMAC key succeeds, and a
token signed with a key parses to its claims when the key function yields that key and
the claims are valid at the time of parsing. -/
structure JWTLib.Lawful (jwt : JWTLib) : Prop where
  sign_ok : ∀ key c, ∃ tok, jwt.SignedString key c = .ok tok
  round_trip : ∀ key c tok keyFunc now, jwt.SignedString key c = .ok tok →
    keyFunc .hmac = .ok key → c.validAt now → jwt.ParseWithClaims tok keyFunc now = .ok (.standard c)

/-- A signed 64-bit integer after overflow: the value modulo `2 ^ 64` in the range
from `-2 ^ 63` to `2 ^ 63 - 1`. -/
def wrap64 (x : Int) : Int := (x + 2 ^ 63) % 2 ^ 64 - 2 ^ 63

/-- The constant `time.Hour` in nanoseconds. -/
def timeHour : Int := 3600000000000

/-- The claims `GenerateToken` signs: `now₁` and `now₂` are its two readings of
`time.Now()` in Unix nanoseconds, `tokenTTL` the parsed `TOKEN_TTL_HOURS`;
`time.Duration(tokenTTL) * time.Hour` is a 64-bit product. -/
def tokenClaims (tokenTTL now₁ now₂ : Int) (username : String) : StandardClaims :=
  { ExpiresAt := (now₁ + wrap64 (tokenTTL * timeHour)) / 1000000000
    IssuedAt := now₂ / 1000000000
    Id := username }

/-- The method `AuthService.GenerateToken`; `ttlVar` and `keyVar` are the values of
`TOKEN_TTL_HOURS` and `SIGNING_KEY`. -/
def AuthService.GenerateToken (jwt : JWTLib) (ttlVar keyVar : String) (now₁ now₂ : Int)
    (username : String) : String × Option GoError :=
  let op := "service.auth.GenerateToken"
  match Atoi ttlVar with
  | none =>
    ("", some (NewAPIError InternalError
      (.wrapf (.driver "strconv.Atoi: parsing error") (op ++ ": (env TOKEN_TTL_HOURS must be numeric)"))))
  | some tokenTTL =>
    if keyVar = "" then
      ("", some (NewAPIErrorWithMsg InternalError (op ++ ": (failed get sign key): sign key is empty")))
    else
      match jwt.SignedString keyVar (tokenClaims tokenTTL now₁ now₂ username) with
      | .error err => ("", some (NewAPIError BadTokenError (.wrapf err (op ++ ": (failed sign token)"))))
      | .ok signedToken => (signedToken, none)

/-- The key function `ParseToken` hands to the library. -/
def parseTokenKeyFunc (keyVar : String) (method : SigningMethod) : Except GoError String :=
  let op := "service.auth.ParseToken"
  match method with
  | .other =>
    .error (NewAPIErrorWithMsg BadTokenError (op ++ ": (failed parse token): invalid signing method"))
  | .hmac =>
    if keyVar = "" then
      .error (NewAPIErrorWithMsg InternalError (op ++ ": (failed get sign key): sign key is empty"))
    else .ok keyVar

/-- The method `AuthService.ParseToken`: the username and the error; `now` is the Unix
time at which the library checks the claims. -/
def AuthService.ParseToken (jwt : JWTLib) (keyVar : String) (now : Int) (token : String) :
    String × Option GoError :=
  let op := "service.auth.ParseToken"
  match jwt.ParseWithClaims token (parseTokenKeyFunc keyVar) now with
  | .error err => ("", some (NewAPIError BadTokenError (.wrapf err (op ++ ": (failed parse token)"))))
  | .ok (.other) =>
    ("", some (NewAPIErrorWithMsg BadTokenError
      (op ++ ": (failed parse token): invalid access token claims type")))
  | .ok (.standard claims) => (claims.Id, none)

/-! ## Concrete stores and environments -/

/-- Two accounts `A` and `B` with 1000 coins each, and the item `cup` priced 20. -/
def storeAB : Store :=
  ⟨[⟨"A", "h", 1000⟩, ⟨"B", "h", 1000⟩], [⟨"cup", 20⟩], [], []⟩

/-- The accounts of `storeAB` after `A` has sent 100 coins to `B`. -/
def storeAB' : Store :=
  ⟨[⟨"A", "h", 900⟩, ⟨"B", "h", 1100⟩], [⟨"cup", 20⟩], [⟨"A", "B", 100, 0⟩], []⟩

/-- One account `A` with 1000 coins and an empty transaction log. -/
def storeA : Store :=
  ⟨[⟨"A", "h", 1000⟩], [⟨"cup", 20⟩], [], []⟩

/-- The environment in which exactly statement `st` fails. -/
def envFailAt (st : Stmt) : Env :=
  ⟨fun t => if t = st then some "injected failure" else none, 0⟩

/-- The account `A` with 15 coins, too few for a `cup`. -/
def storePoor : Store :=
  ⟨[⟨"A", "h", 15⟩], [⟨"cup", 20⟩], [], [⟨"A", "pen", 1⟩]⟩

/-- The environment of `AuthRepository.Auth` in which nothing fails and
`MONEY_FOR_START` is 1000. -/
def authEnvOk : AuthEnv := ⟨none, none, "1000"⟩

/-- A natural number in unary, closed by a full stop. -/
def encNat (n : Nat) : List Char := List.replicate n 'a' ++ ['.']

/-- An integer: its sign, then its absolute value in unary. -/
def encInt (x : Int) : List Char := (if x < 0 then '-' else '+') :: encNat x.natAbs

/-- Read a number written by `encNat`: the number and the characters after it. -/
def readNat : List Char → Nat × List Char
  | [] => (0, [])
  | c :: cs => if c = 'a' then ((readNat cs).1 + 1, (readNat cs).2) else (0, cs)

/-- Read a number written by `encInt`. -/
def readInt : List Char → Int × List Char
  | [] => (0, [])
  | c :: cs => (if c = '-' then -((readNat cs).1 : Int) else ((readNat cs).1 : Int), (readNat cs).2)

/-- The token of the test library below: the two times, the length of the key, the key
and the username. -/
def testEncode (key : String) (c : StandardClaims) : String :=
  String.mk (encInt c.ExpiresAt ++ (encInt c.IssuedAt ++ (encNat key.data.length ++
    (key.data ++ c.Id.data))))

/-- The key and the claims read back from a token of the test library. -/
def testDecode (tok : String) : String × StandardClaims :=
  let r1 := readInt tok.data
  let r2 := readInt r1.2
  let r3 := readNat r2.2
  (String.mk (r3.2.take r3.1), ⟨r1.1, r2.1, String.mk (r3.2.drop r3.1)⟩)

/-- A small stand-in for the token library, used to run `AuthService` on concrete
inputs: the token spells out the key and the claims; parsing asks the key function for
the key, compares it with the one in the token and checks the claims as
`StandardClaims.Valid()` does. -/
def testJWT : JWTLib where
  SignedString key c := .ok (testEncode key c)
  ParseWithClaims tok keyFunc now :=
    match keyFunc .hmac with
    | .error e => .error e
    | .ok key =>
      if (testDecode tok).1 ≠ key then .error (.driver "signature is invalid")
      else if ¬ (testDecode tok).2.validAt now then .error (.driver "token is expired")
      else .ok (.standard (testDecode tok).2)

/-! ## Lemmas on the queries -/

theorem balanceOf_cons (u : UserRow) (us : List UserRow) (c : String) :
    balanceOf (u :: us) c = if u.username = c then some u.balance else balanceOf us c := by
  by_cases h : u.username = c <;> simp [balanceOf, List.find?_cons, h]

theorem priceOf_cons (u : ItemRow) (us : List ItemRow) (c : String) :
    priceOf (u :: us) c = if u.type = c then some u.price else priceOf us c := by
  by_cases h : u.type = c <;> simp [priceOf, List.find?_cons, h]

theorem getLockedUser_cons (u : UserRow) (us : List UserRow) (a b : String) :
    getLockedUser (u :: us) a b a =
      if u.username = a then .ok ⟨u.username, u.balance⟩ else getLockedUser us a b a := by
  by_cases h : u.username = a
  · simp [getLockedUser, lockedUsers, List.filter_cons, h]
  · by_cases hb : u.username = b
    · subst hb
      simp [getLockedUser, lockedUsers, List.filter_cons, h]
    · simp [getLockedUser, lockedUsers, List.filter_cons, h, hb]

theorem getUserForUpdate_cons (u : UserRow) (us : List UserRow) (a : String) :
    getUserForUpdate (u :: us) a =
      if u.username = a then .ok ⟨u.username, u.balance⟩ else getUserForUpdate us a := by
  by_cases h : u.username = a <;> simp [getUserForUpdate, List.filter_cons, h]

theorem getItemPrice_cons (u : ItemRow) (us : List ItemRow) (a : String) :
    getItemPrice (u :: us) a = if u.type = a then .ok u.price else getItemPrice us a := by
  by_cases h : u.type = a <;> simp [getItemPrice, List.filter_cons, h]

theorem getLockedUser_eq (users : List UserRow) (a b : String) :
    getLockedUser users a b a =
      match balanceOf users a with
      | some bal => .ok ⟨a, bal⟩
      | none => .error .errNoRows := by
  induction users with
  | nil => rfl
  | cons u us ih =>
    rw [getLockedUser_cons, balanceOf_cons]
    by_cases h : u.username = a
    · simp [h]
    · simp only [h, if_false]; exact ih

theorem getUserForUpdate_eq (users : List UserRow) (a : String) :
    getUserForUpdate users a =
      match balanceOf users a with
      | some bal => .ok ⟨a, bal⟩
      | none => .error .errNoRows := by
  induction users with
  | nil => rfl
  | cons u us ih =>
    rw [getUserForUpdate_cons, balanceOf_cons]
    by_cases h : u.username = a
    · simp [h]
    · simp only [h, if_false]; exact ih

theorem getItemPrice_eq (items : List ItemRow) (item : String) :
    getItemPrice items item =
      match priceOf items item with
      | some p => .ok p
      | none => .error .errNoRows := by
  induction items with
  | nil => rfl
  | cons u us ih =>
    rw [getItemPrice_cons, priceOf_cons]
    by_cases h : u.type = item
    · simp [h]
    · simp only [h, if_false]; exact ih

theorem subBalance_cons (u : UserRow) (us : List UserRow) (amount : Int) (a : String) :
    subBalance (u :: us) amount a =
      (if u.username = a then { u with balance := u.balance - amount } else u)
        :: subBalance us amount a := rfl

theorem addBalance_cons (u : UserRow) (us : List UserRow) (amount : Int) (a : String) :
    addBalance (u :: us) amount a =
      (if u.username = a then { u with balance := u.balance + amount } else u)
        :: addBalance us amount a := rfl

theorem balanceOf_subBalance (users : List UserRow) (amount : Int) (a c : String) :
    balanceOf (subBalance users amount a) c =
      if c = a then (balanceOf users c).map (· - amount) else balanceOf users c := by
  induction users with
  | nil => simp [balanceOf, subBalance]
  | cons u us ih =>
    rw [subBalance_cons, balanceOf_cons, balanceOf_cons, ih]
    by_cases hc : c = a
    · subst hc
      by_cases h : u.username = c <;> simp [h]
    · by_cases h : u.username = a
      · have h2 : ¬ u.username = c := fun e => hc (e ▸ h)
        simp only [h, if_true, hc, if_false]
        rw [if_neg (by simpa [h] using h2), if_neg (by simpa [h] using h2)]
      · by_cases h2 : u.username = c <;> simp [h, h2, hc]

theorem balanceOf_addBalance (users : List UserRow) (amount : Int) (a c : String) :
    balanceOf (addBalance users amount a) c =
      if c = a then (balanceOf users c).map (· + amount) else balanceOf users c := by
  induction users with
  | nil => simp [balanceOf, addBalance]
  | cons u us ih =>
    rw [addBalance_cons, balanceOf_cons, balanceOf_cons, ih]
    by_cases hc : c = a
    · subst hc
      by_cases h : u.username = c <;> simp [h]
    · by_cases h : u.username = a
      · have h2 : ¬ u.username = c := fun e => hc (e ▸ h)
        simp only [h, if_true, hc, if_false]
        rw [if_neg (by simpa [h] using h2), if_neg (by simpa [h] using h2)]
      · by_cases h2 : u.username = c <;> simp [h, h2, hc]

/-- Every call of `SendCoin` either returns an error and leaves the store as it was, or
returns `nil` after debiting the existing sender, crediting the receiver and appending
the record. -/
theorem sendCoin_cases (env : Env) (s : Store) (a b : String) (amount : Int) :
    (∃ e, ShoppingRepository.SendCoin env s a b amount = (some e, s)) ∨
    (∃ bs, balanceOf s.users a = some bs ∧ amount ≤ bs ∧
      ShoppingRepository.SendCoin env s a b amount =
        (none, { s with
          users := addBalance (subBalance s.users amount a) amount b,
          transactions := insertTransaction s.transactions a b amount env.now })) := by
  unfold ShoppingRepository.SendCoin
  simp only [Beginx, Tx.Rollback, Tx.Commit, getLockedUser_eq]
  cases h1 : env.fault .begin with
  | some e => exact Or.inl ⟨_, rfl⟩
  | none =>
    cases h2 : env.fault .getUser with
    | some e => exact Or.inl ⟨_, rfl⟩
    | none =>
      cases hb : balanceOf s.users a with
      | none => exact Or.inl ⟨_, rfl⟩
      | some bs =>
        by_cases hlt : bs < amount
        · simp only [hlt, if_true]; exact Or.inl ⟨_, rfl⟩
        · simp only [hlt, if_false]
          cases h3 : env.fault .execSend with
          | some e => exact Or.inl ⟨_, rfl⟩
          | none =>
            cases h4 : env.fault .execReceive with
            | some e => exact Or.inl ⟨_, rfl⟩
            | none =>
              cases h5 : env.fault .execAddTransaction with
              | some e => exact Or.inl ⟨_, rfl⟩
              | none =>
                cases h6 : env.fault .commit with
                | some e => exact Or.inl ⟨_, rfl⟩
                | none => exact Or.inr ⟨bs, rfl, not_lt.mp hlt, rfl⟩

/-- Every call of `Buy` either returns an error and leaves the store as it was, or returns
`nil` after debiting the existing buyer by the price of the item and recording the
purchase. -/
theorem buy_cases (env : Env) (s : Store) (u i : String) :
    (∃ e, ShoppingRepository.Buy env s u i = (some e, s)) ∨
    (∃ p bal, priceOf s.items i = some p ∧ balanceOf s.users u = some bal ∧ p ≤ bal ∧
      ShoppingRepository.Buy env s u i =
        (none, { s with
          users := subBalance s.users p u,
          purchases := upsertPurchase s.purchases u i })) := by
  unfold ShoppingRepository.Buy
  simp only [Beginx, Tx.Rollback, Tx.Commit, getItemPrice_eq, getUserForUpdate_eq]
  cases h1 : env.fault .begin with
  | some e => exact Or.inl ⟨_, rfl⟩
  | none =>
    cases h2 : env.fault .getItemPrice with
    | some e => simp only [isErrNoRows]; exact Or.inl ⟨_, rfl⟩
    | none =>
      cases hp : priceOf s.items i with
      | none => simp only [isErrNoRows]; exact Or.inl ⟨_, rfl⟩
      | some p =>
        cases h3 : env.fault .getUser with
        | some e => exact Or.inl ⟨_, rfl⟩
        | none =>
          cases hb : balanceOf s.users u with
          | none => exact Or.inl ⟨_, rfl⟩
          | some bal =>
            by_cases hlt : bal < p
            · simp only [hlt, if_true]; exact Or.inl ⟨_, rfl⟩
            · simp only [hlt, if_false]
              cases h4 : env.fault .execBuy with
              | some e => exact Or.inl ⟨_, rfl⟩
              | none =>
                cases h5 : env.fault .execAddPurchases with
                | some e => exact Or.inl ⟨_, rfl⟩
                | none =>
                  cases h6 : env.fault .commit with
                  | some e => exact Or.inl ⟨_, rfl⟩
                  | none => exact Or.inr ⟨p, bal, rfl, rfl, not_lt.mp hlt, rfl⟩

/-! ## Lemmas on the updates -/

theorem subBalance_usernames (users : List UserRow) (amount : Int) (a : String) :
    (subBalance users amount a).map (·.username) = users.map (·.username) := by
  simp only [subBalance, List.map_map]
  apply List.map_congr_left
  intro u _
  by_cases h : u.username = a <;> simp [h]

theorem addBalance_usernames (users : List UserRow) (amount : Int) (a : String) :
    (addBalance users amount a).map (·.username) = users.map (·.username) := by
  simp only [addBalance, List.map_map]
  apply List.map_congr_left
  intro u _
  by_cases h : u.username = a <;> simp [h]

theorem balanceOf_eq_none (users : List UserRow) (a : String) :
    balanceOf users a = none ↔ a ∉ users.map (·.username) := by
  induction users with
  | nil => simp [balanceOf]
  | cons u us ih =>
    rw [balanceOf_cons]
    by_cases h : u.username = a
    · simp [h]
    · simp only [h, if_false, ih, List.map_cons, List.mem_cons, not_or]
      exact ⟨fun h' => ⟨fun e => h e.symm, h'⟩, fun h' => h'.2⟩

theorem subBalance_of_absent (users : List UserRow) (amount : Int) (a : String)
    (h : a ∉ users.map (·.username)) : subBalance users amount a = users := by
  induction users with
  | nil => rfl
  | cons u us ih =>
    simp only [List.map_cons, List.mem_cons, not_or] at h
    rw [subBalance_cons, ih h.2, if_neg (fun e => h.1 e.symm)]

theorem addBalance_of_absent (users : List UserRow) (amount : Int) (a : String)
    (h : a ∉ users.map (·.username)) : addBalance users amount a = users := by
  induction users with
  | nil => rfl
  | cons u us ih =>
    simp only [List.map_cons, List.mem_cons, not_or] at h
    rw [addBalance_cons, ih h.2, if_neg (fun e => h.1 e.symm)]

theorem totalBalance_cons (u : UserRow) (us : List UserRow) :
    totalBalance (u :: us) = u.balance + totalBalance us := by
  simp [totalBalance]

/-- Under the key of `users`, the debit `UPDATE` lowers the total by `amount` when the
account exists and leaves it alone otherwise. -/
theorem totalBalance_subBalance (users : List UserRow) (amount : Int) (a : String)
    (hu : UsersUnique users) :
    totalBalance (subBalance users amount a) =
      totalBalance users - (if balanceOf users a = none then 0 else amount) := by
  induction users with
  | nil => simp [subBalance, totalBalance, balanceOf]
  | cons u us ih =>
    have hu' : u.username ∉ us.map (·.username) ∧ UsersUnique us := by
      simpa [UsersUnique] using hu
    rw [subBalance_cons, totalBalance_cons, totalBalance_cons, balanceOf_cons]
    by_cases h : u.username = a
    · have hab : a ∉ us.map (·.username) := h ▸ hu'.1
      rw [subBalance_of_absent us amount a hab]
      simp only [h, if_true]
      simp
      ring
    · rw [ih hu'.2]
      simp only [h, if_false]
      ring

/-- Under the key of `users`, the credit `UPDATE` raises the total by `amount` when the
account exists and leaves it alone otherwise. -/
theorem totalBalance_addBalance (users : List UserRow) (amount : Int) (a : String)
    (hu : UsersUnique users) :
    totalBalance (addBalance users amount a) =
      totalBalance users + (if balanceOf users a = none then 0 else amount) := by
  induction users with
  | nil => simp [addBalance, totalBalance, balanceOf]
  | cons u us ih =>
    have hu' : u.username ∉ us.map (·.username) ∧ UsersUnique us := by
      simpa [UsersUnique] using hu
    rw [addBalance_cons, totalBalance_cons, totalBalance_cons, balanceOf_cons]
    by_cases h : u.username = a
    · have hab : a ∉ us.map (·.username) := h ▸ hu'.1
      rw [addBalance_of_absent us amount a hab]
      simp only [h, if_true]
      simp
      ring
    · rw [ih hu'.2]
      simp only [h, if_false]
      ring

theorem usersUnique_subBalance (users : List UserRow) (amount : Int) (a : String)
    (hu : UsersUnique users) : UsersUnique (subBalance users amount a) := by
  unfold UsersUnique at hu ⊢
  rw [subBalance_usernames]; exact hu

theorem usersUnique_addBalance (users : List UserRow) (amount : Int) (a : String)
    (hu : UsersUnique users) : UsersUnique (addBalance users amount a) := by
  unfold UsersUnique at hu ⊢
  rw [addBalance_usernames]; exact hu

/-- Under the key of `users`, the row found for a username is the only row with it. -/
theorem balance_of_mem (users : List UserRow) (hu : UsersUnique users) (u : UserRow)
    (hmem : u ∈ users) : balanceOf users u.username = some u.balance := by
  induction users with
  | nil => cases hmem
  | cons v vs ih =>
    have hu' : v.username ∉ vs.map (·.username) ∧ UsersUnique vs := by
      simpa [UsersUnique] using hu
    rw [balanceOf_cons]
    rcases List.mem_cons.mp hmem with rfl | hm
    · simp
    · have hne : ¬ v.username = u.username := by
        intro e
        exact hu'.1 (e ▸ List.mem_map_of_mem (·.username) hm)
      simp only [hne, if_false]
      exact ih hu'.2 hm

theorem nonNegative_addBalance (users : List UserRow) (amount : Int) (a : String)
    (h0 : NonNegative users) (hpos : 0 ≤ amount) : NonNegative (addBalance users amount a) := by
  intro v hv
  simp only [addBalance, List.mem_map] at hv
  obtain ⟨u, hu, rfl⟩ := hv
  have := h0 u hu
  by_cases h : u.username = a
  · simp only [h, if_true]; omega
  · simp only [h, if_false]; exact this

theorem nonNegative_subBalance (users : List UserRow) (amount bal : Int) (a : String)
    (hu : UsersUnique users) (h0 : NonNegative users) (hb : balanceOf users a = some bal)
    (hle : amount ≤ bal) : NonNegative (subBalance users amount a) := by
  intro v hv
  simp only [subBalance, List.mem_map] at hv
  obtain ⟨u, hmem, rfl⟩ := hv
  have := h0 u hmem
  by_cases h : u.username = a
  · simp only [h, if_true]
    have h1 := balance_of_mem users hu u hmem
    rw [h, hb] at h1
    have : bal = u.balance := by simpa using h1
    show 0 ≤ u.balance - amount
    omega
  · simp only [h, if_false]; exact this

/-- Conservation where the receiver exists: under the key of `users`, a call of `SendCoin`
whose receiver has an account leaves the sum of all balances unchanged, whatever it
returns. -/
theorem sendCoin_total (env : Env) (s : Store) (a b : String) (amount : Int)
    (hu : UsersUnique s.users) (hb : balanceOf s.users b ≠ none) :
    totalBalance (ShoppingRepository.SendCoin env s a b amount).2.users
      = totalBalance s.users := by
  rcases sendCoin_cases env s a b amount with ⟨e, he⟩ | ⟨bs, hbs, _, hrun⟩
  · rw [he]
  · rw [hrun]
    simp only []
    rw [totalBalance_addBalance _ _ _ (usersUnique_subBalance _ _ _ hu),
      totalBalance_subBalance _ _ _ hu]
    have h1 : balanceOf (subBalance s.users amount a) b ≠ none := by
      rw [balanceOf_subBalance]
      by_cases hba : b = a
      · simp [hba, hbs]
      · simpa [hba] using hb
    simp [h1, hbs]

theorem sendCoin_users_unique (env : Env) (s : Store) (a b : String) (amount : Int)
    (hu : UsersUnique s.users) :
    UsersUnique (ShoppingRepository.SendCoin env s a b amount).2.users := by
  rcases sendCoin_cases env s a b amount with ⟨e, he⟩ | ⟨bs, _, _, hrun⟩
  · rw [he]; exact hu
  · rw [hrun]; exact usersUnique_addBalance _ _ _ (usersUnique_subBalance _ _ _ hu)

theorem buy_users_unique (env : Env) (s : Store) (u i : String)
    (hu : UsersUnique s.users) :
    UsersUnique (ShoppingRepository.Buy env s u i).2.users := by
  rcases buy_cases env s u i with ⟨e, he⟩ | ⟨p, bal, _, _, _, hrun⟩
  · rw [he]; exact hu
  · rw [hrun]; exact usersUnique_subBalance _ _ _ hu

theorem sendCoin_nonNegative (env : Env) (s : Store) (a b : String) (amount : Int)
    (hu : UsersUnique s.users) (h0 : NonNegative s.users) (hpos : 0 < amount) :
    NonNegative (ShoppingRepository.SendCoin env s a b amount).2.users := by
  rcases sendCoin_cases env s a b amount with ⟨e, he⟩ | ⟨bs, hbs, hle, hrun⟩
  · rw [he]; exact h0
  · rw [hrun]
    exact nonNegative_addBalance _ _ _
      (nonNegative_subBalance _ _ _ _ hu h0 hbs hle) (le_of_lt hpos)

theorem buy_nonNegative (env : Env) (s : Store) (u i : String)
    (hu : UsersUnique s.users) (h0 : NonNegative s.users) :
    NonNegative (ShoppingRepository.Buy env s u i).2.users := by
  rcases buy_cases env s u i with ⟨e, he⟩ | ⟨p, bal, _, hbal, hle, hrun⟩
  · rw [he]; exact h0
  · rw [hrun]
    exact nonNegative_subBalance _ _ _ _ hu h0 hbal hle

/-- The effect of one `SendCoin` call on every account: either the store is unchanged, or
one record `(a, b, amount)` is appended and the balance found for an account `c` has gone
down by `amount` if `c` is the sender and up by `amount` if `c` is the receiver. -/
theorem sendCoin_delta (env : Env) (s : Store) (a b : String) (amount : Int) :
    (ShoppingRepository.SendCoin env s a b amount).2 = s ∨
    ((ShoppingRepository.SendCoin env s a b amount).2.transactions
        = s.transactions ++ [⟨a, b, amount, env.now⟩] ∧
      ∀ c, balanceOf (ShoppingRepository.SendCoin env s a b amount).2.users c
        = (balanceOf s.users c).map fun bal =>
            bal - (if c = a then amount else 0) + (if c = b then amount else 0)) := by
  rcases sendCoin_cases env s a b amount with ⟨e, he⟩ | ⟨bs, _, _, hrun⟩
  · left; rw [he]
  · right
    rw [hrun]
    refine ⟨rfl, fun c => ?_⟩
    simp only [balanceOf_addBalance, balanceOf_subBalance]
    cases hc : balanceOf s.users c with
    | none => by_cases h1 : c = a <;> by_cases h2 : c = b <;> simp [h1, h2]
    | some bal =>
      by_cases h1 : c = a
      · subst h1
        by_cases h2 : c = b
        · subst h2; simp
        · simp [h2]
      · by_cases h2 : c = b
        · subst h2; simp [h1]
        · simp [h1, h2]

/-! ## The claims -/

/-- C1: when sender and receiver are two distinct existing accounts, the amount is at
most the sender's balance and no statement fails, `SendCoin` returns `nil`; the sender's
balance goes down by `amount`, the receiver's goes up by `amount`, one transaction
record `(sender, receiver, amount)` is appended, and every other row of `users`, the
catalog and the purchase records are unchanged.  (The proof does not use `0 < amount`.) -/
theorem sendCoin_success (env : Env) (s : Store) (sender receiver : String)
    (amount bs br : Int) (henv : ∀ st, env.fault st = none) (hne : sender ≠ receiver)
    (hs : balanceOf s.users sender = some bs) (hr : balanceOf s.users receiver = some br)
    (hle : amount ≤ bs) :
    (ShoppingRepository.SendCoin env s sender receiver amount).1 = none ∧
    (ShoppingRepository.SendCoin env s sender receiver amount).2.transactions
      = s.transactions ++ [⟨sender, receiver, amount, env.now⟩] ∧
    (ShoppingRepository.SendCoin env s sender receiver amount).2.items = s.items ∧
    (ShoppingRepository.SendCoin env s sender receiver amount).2.purchases = s.purchases ∧
    (ShoppingRepository.SendCoin env s sender receiver amount).2.users
      = s.users.map (fun u =>
          if u.username = sender then { u with balance := u.balance - amount }
          else if u.username = receiver then { u with balance := u.balance + amount }
          else u) ∧
    balanceOf (ShoppingRepository.SendCoin env s sender receiver amount).2.users sender
      = some (bs - amount) ∧
    balanceOf (ShoppingRepository.SendCoin env s sender receiver amount).2.users receiver
      = some (br + amount) ∧
    ∀ c, c ≠ sender → c ≠ receiver →
      balanceOf (ShoppingRepository.SendCoin env s sender receiver amount).2.users c
        = balanceOf s.users c := by
  have hrun : ShoppingRepository.SendCoin env s sender receiver amount =
      (none, { s with
        users := addBalance (subBalance s.users amount sender) amount receiver,
        transactions := insertTransaction s.transactions sender receiver amount env.now }) := by
    simp [ShoppingRepository.SendCoin, henv, Beginx, Tx.Commit, getLockedUser_eq, hs,
      not_lt.mpr hle]
  rw [hrun]
  refine ⟨rfl, rfl, rfl, rfl, ?_, ?_, ?_, ?_⟩
  · simp only [addBalance, subBalance, List.map_map]
    apply List.map_congr_left
    intro u _
    by_cases h1 : u.username = sender
    · simp [h1, hne]
    · simp [h1]
  · simp [balanceOf_addBalance, balanceOf_subBalance, hne, hs]
  · simp [balanceOf_addBalance, balanceOf_subBalance, hne.symm, hr]
  · intro c hc1 hc2
    simp [balanceOf_addBalance, balanceOf_subBalance, hc1, hc2]

/-- The scenario of C1: `A` and `B` hold 1000 each, `A` sends 100 to `B`; the balances
become 900 and 1100 and the log holds the one record. -/
theorem sendCoin_success_witness :
    (ShoppingRepository.SendCoin (Env.ok 0) storeAB "A" "B" 100).1 = none ∧
    (ShoppingRepository.SendCoin (Env.ok 0) storeAB "A" "B" 100).2.transactions
      = [⟨"A", "B", 100, 0⟩] ∧
    balanceOf (ShoppingRepository.SendCoin (Env.ok 0) storeAB "A" "B" 100).2.users "A"
      = some 900 ∧
    balanceOf (ShoppingRepository.SendCoin (Env.ok 0) storeAB "A" "B" 100).2.users "B"
      = some 1100 := by
  have h := sendCoin_success (Env.ok 0) storeAB "A" "B" 100 1000 1000
    (fun _ => rfl) (by decide) (by decide) (by decide) (by decide)
  exact ⟨h.1, h.2.1, h.2.2.2.2.2.1, h.2.2.2.2.2.2.1⟩

/-- C2, at the failing input: `A` holds 1000 and `ghost` has no account; `SendCoin(A, ghost,
100)` returns `nil` and the sum of all balances falls from 1000 to 900. -/
theorem sendCoin_total_drops :
    balanceOf storeA.users "ghost" = none ∧
    (ShoppingRepository.SendCoin (Env.ok 0) storeA "A" "ghost" 100).1 = none ∧
    totalBalance storeA.users = 1000 ∧
    totalBalance (ShoppingRepository.SendCoin (Env.ok 0) storeA "A" "ghost" 100).2.users
      = 900 := by
  decide

/-- C3: in a store whose usernames are unique and whose balances are all at least zero,
every balance is still at least zero after any `SendCoin` with a positive amount, after
any `Buy`, whatever they return, and after any sequence of such calls. -/
theorem no_negative_balance (s : Store) (hu : UsersUnique s.users)
    (h0 : NonNegative s.users) :
    (∀ env a b amount, 0 < amount →
      NonNegative (ShoppingRepository.SendCoin env s a b amount).2.users) ∧
    (∀ env u i, NonNegative (ShoppingRepository.Buy env s u i).2.users) ∧
    (∀ ops : List Op, (∀ op ∈ ops, op.PositiveAmount) →
      NonNegative (runOps s ops).users) := by
  refine ⟨fun env a b amount h => sendCoin_nonNegative env s a b amount hu h0 h,
    fun env u i => buy_nonNegative env s u i hu h0, ?_⟩
  intro ops
  induction ops generalizing s with
  | nil => intro _; exact h0
  | cons op ops ih =>
    intro hops
    have hop := hops op (List.mem_cons_self _ _)
    have hrest : ∀ o ∈ ops, o.PositiveAmount := fun o ho => hops o (List.mem_cons_of_mem _ ho)
    cases op with
    | sendCoin env a b amount =>
      exact ih _ (sendCoin_users_unique env s a b amount hu)
        (sendCoin_nonNegative env s a b amount hu h0 hop) hrest
    | buy env u i =>
      exact ih _ (buy_users_unique env s u i hu) (buy_nonNegative env s u i hu h0) hrest

/-- The store `storeAB` after a transfer that would overdraw, a transfer in range and a
purchase: no balance is negative. -/
theorem no_negative_balance_witness :
    NonNegative (runOps storeAB
      [.sendCoin (Env.ok 0) "A" "B" 50000, .sendCoin (Env.ok 1) "A" "B" 1000,
       .buy (Env.ok 2) "B" "cup", .buy (Env.ok 3) "A" "cup"]).users :=
  (no_negative_balance storeAB (by simp [UsersUnique, storeAB])
    (by simp [NonNegative, storeAB])).2.2 _
    (by simp [Op.PositiveAmount])

/-- C4: whenever `SendCoin` or `Buy` returns an error, for any failing statement
including the commit, the committed store is the store before the call. -/
theorem atomicity (env : Env) (s : Store) (a b : String) (amount : Int) (u i : String) :
    ((ShoppingRepository.SendCoin env s a b amount).1 ≠ none →
      (ShoppingRepository.SendCoin env s a b amount).2 = s) ∧
    ((ShoppingRepository.Buy env s u i).1 ≠ none →
      (ShoppingRepository.Buy env s u i).2 = s) := by
  constructor
  · intro h
    rcases sendCoin_cases env s a b amount with ⟨e, he⟩ | ⟨bs, _, _, hrun⟩
    · rw [he]
    · rw [hrun] at h; exact absurd rfl h
  · intro h
    rcases buy_cases env s u i with ⟨e, he⟩ | ⟨p, bal, _, _, _, hrun⟩
    · rw [he]
    · rw [hrun] at h; exact absurd rfl h

/-- A transfer and a purchase that fail at the commit leave `storeAB` as it was. -/
theorem atomicity_witness :
    (ShoppingRepository.SendCoin (envFailAt .commit) storeAB "A" "B" 100).2 = storeAB ∧
    (ShoppingRepository.Buy (envFailAt .commit) storeAB "A" "cup").2 = storeAB :=
  ⟨(atomicity (envFailAt .commit) storeAB "A" "B" 100 "A" "cup").1 (by decide),
   (atomicity (envFailAt .commit) storeAB "A" "B" 100 "A" "cup").2 (by decide)⟩

/-- C5: when the sender exists with a balance below `amount` (and the transaction can be
opened and the sender read), `SendCoin` fails with `NotEnoughMoneyError`, status 400 and
message "not enough money", and the store is unchanged. -/
theorem sendCoin_not_enough_money (env : Env) (s : Store) (sender receiver : String)
    (amount bs : Int) (hbegin : env.fault .begin = none) (hget : env.fault .getUser = none)
    (hs : balanceOf s.users sender = some bs) (hlt : bs < amount) :
    ShoppingRepository.SendCoin env s sender receiver amount =
      (some (NewAPIErrorWithMsg NotEnoughMoneyError
        "repository.shopping.SendCoin: (failed get user): not enough money"), s) ∧
    (∀ e, (ShoppingRepository.SendCoin env s sender receiver amount).1 = some e →
      GetAPIError e = NotEnoughMoneyError ∧ (GetAPIError e).Status = 400 ∧
      (GetAPIError e).Message = "not enough money") := by
  have hrun : ShoppingRepository.SendCoin env s sender receiver amount =
      (some (NewAPIErrorWithMsg NotEnoughMoneyError
        "repository.shopping.SendCoin: (failed get user): not enough money"), s) := by
    simp [ShoppingRepository.SendCoin, hbegin, hget, Beginx, Tx.Rollback, getLockedUser_eq,
      hs, hlt]
  refine ⟨hrun, ?_⟩
  intro e he
  rw [hrun] at he
  cases he
  exact ⟨rfl, rfl, rfl⟩

/-- The scenario of C5: with balances 900 and 1100, sending 50000 fails with
"not enough money" and changes nothing. -/
theorem sendCoin_not_enough_money_witness :
    ShoppingRepository.SendCoin (Env.ok 1) storeAB' "A" "B" 50000 =
      (some (NewAPIErrorWithMsg NotEnoughMoneyError
        "repository.shopping.SendCoin: (failed get user): not enough money"), storeAB') :=
  (sendCoin_not_enough_money (Env.ok 1) storeAB' "A" "B" 50000 900 rfl rfl
    (by decide) (by decide)).1

/-- C6, as stated, fails: in `storeAB` the sender `ghost` has no account and `SendCoin`
answers with an error of status 500, not a 4xx; and for the receiver `ghost` without an
account it returns `nil`, debits the sender and appends a record. -/
theorem sendCoin_unknown_account_counterexample :
    (balanceOf storeAB.users "ghost" = none ∧
      ¬ ∃ e, (ShoppingRepository.SendCoin (Env.ok 0) storeAB "ghost" "B" 100).1 = some e ∧
        400 ≤ (GetAPIError e).Status ∧ (GetAPIError e).Status < 500) ∧
    ((ShoppingRepository.SendCoin (Env.ok 0) storeAB "B" "ghost" 100).1 = none ∧
      (ShoppingRepository.SendCoin (Env.ok 0) storeAB "B" "ghost" 100).2 ≠ storeAB) := by
  refine ⟨⟨by decide, ?_⟩, by decide⟩
  rintro ⟨e, he, _, h2⟩
  have hrun : (ShoppingRepository.SendCoin (Env.ok 0) storeAB "ghost" "B" 100).1 =
      some (NewAPIError InternalError
        (.wrapf .errNoRows "repository.shopping.SendCoin: (failed get user)")) := by
    decide
  rw [hrun] at he
  cases he
  revert h2
  decide

/-- C6, amended: when the sender has no account, `SendCoin` fails, the error is classified
as `InternalError` (status 500), and the store is unchanged, for every receiver, amount
and environment. -/
theorem sendCoin_unknown_sender (env : Env) (s : Store) (sender receiver : String)
    (amount : Int) (hs : balanceOf s.users sender = none) :
    ∃ e, ShoppingRepository.SendCoin env s sender receiver amount = (some e, s) ∧
      GetAPIError e = InternalError ∧ (GetAPIError e).Status = 500 := by
  unfold ShoppingRepository.SendCoin
  simp only [Beginx, Tx.Rollback, getLockedUser_eq, hs]
  cases h1 : env.fault .begin with
  | some e => exact ⟨_, rfl, rfl, rfl⟩
  | none =>
    cases h2 : env.fault .getUser with
    | some e => exact ⟨_, rfl, rfl, rfl⟩
    | none => exact ⟨_, rfl, rfl, rfl⟩

/-- In `storeAB` the unknown sender `ghost` gets an internal error and nothing changes. -/
theorem sendCoin_unknown_sender_witness :
    ∃ e, ShoppingRepository.SendCoin (Env.ok 0) storeAB "ghost" "B" 100 = (some e, storeAB) ∧
      GetAPIError e = InternalError ∧ (GetAPIError e).Status = 500 :=
  sendCoin_unknown_sender (Env.ok 0) storeAB "ghost" "B" 100 (by decide)

/-- C7, as stated, fails: `ShopService.SendCoin` returns `nil` and changes the store for
the amount -100 and for a transfer from `A` to `A`. -/
theorem service_sendCoin_counterexample :
    ((-100 : Int) ≤ 0 ∧
      (ShopService.SendCoin (Env.ok 0) storeAB "A" ⟨"B", -100⟩).1 = none ∧
      (ShopService.SendCoin (Env.ok 0) storeAB "A" ⟨"B", -100⟩).2 ≠ storeAB) ∧
    ((ShopService.SendCoin (Env.ok 0) storeAB "A" ⟨"A", 100⟩).1 = none ∧
      (ShopService.SendCoin (Env.ok 0) storeAB "A" ⟨"A", 100⟩).2 ≠ storeAB) := by
  decide

/-- C7, amended: the two preconditions are enforced by the handler.  For a non-empty
username and an input with `Amount ≤ 0` or `ToUser = username`, `validateSendCoinInput`
returns a `BadRequestError` and `Handler.SendCoin` answers 400 "bad request error" with
the store unchanged; `ShopService.SendCoin` adds no check: it ends in the same store as
`ShoppingRepository.SendCoin` and returns `nil` exactly when that does. -/
theorem sendCoin_preconditions_in_handler (env : Env) (s : Store) (username : String)
    (input : Send) (hu : username ≠ "") (hbad : input.Amount ≤ 0 ∨ input.ToUser = username) :
    (∃ e, validateSendCoinInput input username = some e ∧ GetAPIError e = BadRequestError) ∧
    Handler.SendCoin env s (some (.str username)) (.ok input)
      = (⟨400, some "bad request error"⟩, s) ∧
    (ShopService.SendCoin env s username input).2
      = (ShoppingRepository.SendCoin env s username input.ToUser input.Amount).2 ∧
    ((ShopService.SendCoin env s username input).1 = none ↔
      (ShoppingRepository.SendCoin env s username input.ToUser input.Amount).1 = none) := by
  have hv : ∃ e, validateSendCoinInput input username = some e ∧
      GetAPIError e = BadRequestError := by
    unfold validateSendCoinInput
    by_cases h1 : input.Amount ≤ 0
    · exact ⟨_, if_pos h1, rfl⟩
    · rw [if_neg h1]
      by_cases h2 : input.ToUser = ""
      · exact ⟨_, if_pos h2, rfl⟩
      · rw [if_neg h2]
        have h3 : username = input.ToUser := by
          rcases hbad with h | h
          · exact absurd h h1
          · exact h.symm
        exact ⟨_, if_pos h3, rfl⟩
  refine ⟨hv, ?_, ?_, ?_⟩
  · obtain ⟨e, he, hk⟩ := hv
    simp only [Handler.SendCoin, getUsername, hu, if_false, he, LogAndRespondError,
      GetAPIError, hk]
    rfl
  · unfold ShopService.SendCoin
    rcases h : ShoppingRepository.SendCoin env s username input.ToUser input.Amount
      with ⟨_ | e, s'⟩ <;> rfl
  · unfold ShopService.SendCoin
    rcases h : ShoppingRepository.SendCoin env s username input.ToUser input.Amount
      with ⟨_ | e, s'⟩ <;> simp

/-- The handler rejects the amount -100 from `A` to `B` and leaves `storeAB` as it was. -/
theorem sendCoin_preconditions_in_handler_witness :
    Handler.SendCoin (Env.ok 0) storeAB (some (.str "A")) (.ok ⟨"B", -100⟩)
      = (⟨400, some "bad request error"⟩, storeAB) :=
  (sendCoin_preconditions_in_handler (Env.ok 0) storeAB "A" ⟨"B", -100⟩
    (by decide) (Or.inl (by decide))).2.1

/-- C8, at the failing input: `A` holds 1000, the log is empty and `ghost` has no account;
after `SendCoin(A, ghost, 100)` the log holds the record `(A, ghost, 100)`, whose receiver
has no account, `A` holds 900 and no balance has gone up. -/
theorem sendCoin_record_without_receiver :
    storeA.transactions = [] ∧
    (runOps storeA [.sendCoin (Env.ok 0) "A" "ghost" 100]).transactions
      = [⟨"A", "ghost", 100, 0⟩] ∧
    balanceOf (runOps storeA [.sendCoin (Env.ok 0) "A" "ghost" 100]).users "ghost" = none ∧
    (runOps storeA [.sendCoin (Env.ok 0) "A" "ghost" 100]).users = [⟨"A", "h", 900⟩] := by
  decide

/-! ## Lemmas on the purchase records, and the claims on `Buy` -/

theorem any_eq_false_iff_purchasesOf (ps : List PurchaseRow) (u i : String) :
    ps.any (fun p => decide (p.username = u ∧ p.item = i)) = false ↔ purchasesOf ps u i = [] := by
  simp [purchasesOf, List.filter_eq_nil_iff]

/-- The records of the pair bought: a first record with quantity 1, or the old records
with the quantity raised by 1. -/
theorem purchasesOf_upsert_same (ps : List PurchaseRow) (u i : String) :
    purchasesOf (upsertPurchase ps u i) u i =
      if purchasesOf ps u i = [] then [⟨u, i, 1⟩]
      else (purchasesOf ps u i).map fun p => { p with quantity := p.quantity + 1 } := by
  unfold upsertPurchase
  cases h : ps.any (fun p => decide (p.username = u ∧ p.item = i)) with
  | false =>
    have h' := (any_eq_false_iff_purchasesOf ps u i).mp h
    rw [if_pos h']
    simp only [Bool.false_eq_true, if_false]
    unfold purchasesOf at h' ⊢
    rw [List.filter_append, h']
    simp
  | true =>
    have h' : purchasesOf ps u i ≠ [] := by
      intro e
      rw [(any_eq_false_iff_purchasesOf ps u i).mpr e] at h
      cases h
    rw [if_neg h']
    simp only [if_true]
    unfold purchasesOf
    rw [List.filter_map]
    have hf : List.filter ((fun p : PurchaseRow => decide (p.username = u ∧ p.item = i)) ∘
        fun p => if p.username = u ∧ p.item = i then { p with quantity := p.quantity + 1 } else p) ps
        = List.filter (fun p : PurchaseRow => decide (p.username = u ∧ p.item = i)) ps := by
      apply List.filter_congr
      intro p _
      by_cases hp : p.username = u ∧ p.item = i
      · simp [hp]
      · simp only [Function.comp, if_neg hp]
    rw [hf]
    apply List.map_congr_left
    intro p hp
    have hp' := (List.mem_filter.mp hp).2
    simp only [decide_eq_true_eq] at hp'
    simp [hp']

/-- The records of every other pair are untouched by the upsert. -/
theorem purchasesOf_upsert_other (ps : List PurchaseRow) (u i u' i' : String)
    (hne : ¬ (u' = u ∧ i' = i)) :
    purchasesOf (upsertPurchase ps u i) u' i' = purchasesOf ps u' i' := by
  unfold upsertPurchase
  cases h : ps.any (fun p => decide (p.username = u ∧ p.item = i)) with
  | false =>
    simp only [Bool.false_eq_true, if_false]
    unfold purchasesOf
    rw [List.filter_append]
    have : ¬ (u = u' ∧ i = i') := fun e => hne ⟨e.1.symm, e.2.symm⟩
    simp [this]
  | true =>
    simp only [if_true]
    unfold purchasesOf
    rw [List.filter_map]
    have hf : List.filter ((fun p : PurchaseRow => decide (p.username = u' ∧ p.item = i')) ∘
        fun p => if p.username = u ∧ p.item = i then { p with quantity := p.quantity + 1 } else p) ps
        = List.filter (fun p : PurchaseRow => decide (p.username = u' ∧ p.item = i')) ps := by
      apply List.filter_congr
      intro p _
      by_cases hp : p.username = u ∧ p.item = i
      · simp [hp]
      · simp only [Function.comp, if_neg hp]
    rw [hf]
    conv_rhs => rw [← List.map_id (List.filter _ ps)]
    apply List.map_congr_left
    intro p hp
    have hp' := (List.mem_filter.mp hp).2
    simp only [decide_eq_true_eq] at hp'
    have : ¬ (p.username = u ∧ p.item = i) := fun e => hne ⟨hp'.1 ▸ e.1, hp'.2 ▸ e.2⟩
    simp [this]

theorem sendCoin_purchases (env : Env) (s : Store) (a b : String) (amount : Int) :
    (ShoppingRepository.SendCoin env s a b amount).2.purchases = s.purchases := by
  rcases sendCoin_cases env s a b amount with ⟨e, he⟩ | ⟨bs, _, _, hrun⟩
  · rw [he]
  · rw [hrun]

/-- One call keeps the shape of the records of a pair: none while no `Buy` of the pair has
returned `nil`, else one record holding the number of such calls. -/
theorem run_purchasesOf (s : Store) (op : Op) (u i : String) (n : Nat)
    (h : purchasesOf s.purchases u i = if n = 0 then [] else [⟨u, i, n⟩]) :
    purchasesOf (op.run s).2.purchases u i =
      if n + buySuccesses u i s [op] = 0 then []
      else [⟨u, i, (n + buySuccesses u i s [op] : Nat)⟩] := by
  cases op with
  | sendCoin env a b amount =>
    simp only [Op.run, buySuccesses, sendCoin_purchases, h, Nat.add_zero]
  | buy env u' i' =>
    simp only [Op.run, buySuccesses, Nat.add_zero]
    rcases buy_cases env s u' i' with ⟨e, he⟩ | ⟨p, bal, _, _, _, hrun⟩
    · simp [he, h]
    · simp only [hrun]
      by_cases hk : u' = u ∧ i' = i
      · obtain ⟨rfl, rfl⟩ := hk
        simp only [purchasesOf_upsert_same, h, and_self, if_true]
        by_cases hn : n = 0
        · simp [hn]
        · simp [hn]
      · rw [purchasesOf_upsert_other _ _ _ _ _ (fun e => hk ⟨e.1.symm, e.2.symm⟩), h]
        have hk' : ¬ (u' = u ∧ i' = i ∧ True) := fun e => hk ⟨e.1, e.2.1⟩
        simp only [if_neg hk', Nat.add_zero]

theorem buySuccesses_cons (u i : String) (s : Store) (op : Op) (ops : List Op) :
    buySuccesses u i s (op :: ops) =
      buySuccesses u i s [op] + buySuccesses u i (op.run s).2 ops := by
  simp [buySuccesses]

/-- The shape of the records of a pair is kept along any sequence of calls. -/
theorem runOps_purchasesOf (ops : List Op) (s : Store) (u i : String) (n : Nat)
    (h : purchasesOf s.purchases u i = if n = 0 then [] else [⟨u, i, n⟩]) :
    purchasesOf (runOps s ops).purchases u i =
      if n + buySuccesses u i s ops = 0 then []
      else [⟨u, i, (n + buySuccesses u i s ops : Nat)⟩] := by
  induction ops generalizing s n with
  | nil => simpa [runOps, buySuccesses] using h
  | cons op ops ih =>
    have h1 := run_purchasesOf s op u i n h
    have h2 := ih (op.run s).2 (n + buySuccesses u i s [op]) h1
    rw [buySuccesses_cons, ← Nat.add_assoc]
    exact h2

theorem purchasesOf_cons (p : PurchaseRow) (ps : List PurchaseRow) (u i : String) :
    purchasesOf (p :: ps) u i =
      if p.username = u ∧ p.item = i then p :: purchasesOf ps u i else purchasesOf ps u i := by
  by_cases h : p.username = u ∧ p.item = i
  · simp only [purchasesOf, List.filter_cons, h, and_self, decide_True, if_true]
  · simp only [purchasesOf, List.filter_cons, h, decide_False, if_false, Bool.false_eq_true]

theorem purchasesOf_eq_nil (ps : List PurchaseRow) (u i : String) :
    purchasesOf ps u i = [] ↔ (u, i) ∉ ps.map fun p => (p.username, p.item) := by
  simp only [purchasesOf, List.filter_eq_nil_iff, List.mem_map, decide_eq_true_eq, not_exists,
    not_and, Prod.mk.injEq]

/-- The key of `purchases` holds as soon as every pair has at most one record. -/
theorem purchasesUnique_of_length_le (ps : List PurchaseRow)
    (h : ∀ u i, (purchasesOf ps u i).length ≤ 1) : PurchasesUnique ps := by
  induction ps with
  | nil => simp [PurchasesUnique]
  | cons p ps ih =>
    unfold PurchasesUnique
    rw [List.map_cons, List.nodup_cons]
    constructor
    · have h1 := h p.username p.item
      rw [purchasesOf_cons, if_pos ⟨rfl, rfl⟩, List.length_cons] at h1
      have h2 : purchasesOf ps p.username p.item = [] :=
        List.eq_nil_of_length_eq_zero (by omega)
      exact (purchasesOf_eq_nil ps _ _).mp h2
    · apply ih
      intro u i
      have h1 := h u i
      rw [purchasesOf_cons] at h1
      split at h1
      · rw [List.length_cons] at h1; omega
      · exact h1

/-- C9: when the item is in the catalog with price `p`, the buyer has an account with a
balance of at least `p` and no statement fails, `Buy` returns `nil`; the buyer's balance
goes down by exactly `p`, the record of `(buyer, item)` gets quantity 1 if there was
none and its old quantity plus 1 otherwise, and every other row of `users`, the records
of every other pair, the catalog and the transaction log are unchanged. -/
theorem buy_success (env : Env) (s : Store) (buyer item : String) (p bal : Int)
    (henv : ∀ st, env.fault st = none) (hp : priceOf s.items item = some p)
    (hb : balanceOf s.users buyer = some bal) (hle : p ≤ bal) :
    (ShoppingRepository.Buy env s buyer item).1 = none ∧
    (ShoppingRepository.Buy env s buyer item).2.items = s.items ∧
    (ShoppingRepository.Buy env s buyer item).2.transactions = s.transactions ∧
    (ShoppingRepository.Buy env s buyer item).2.users
      = s.users.map (fun u =>
          if u.username = buyer then { u with balance := u.balance - p } else u) ∧
    balanceOf (ShoppingRepository.Buy env s buyer item).2.users buyer = some (bal - p) ∧
    (∀ c, c ≠ buyer →
      balanceOf (ShoppingRepository.Buy env s buyer item).2.users c = balanceOf s.users c) ∧
    purchasesOf (ShoppingRepository.Buy env s buyer item).2.purchases buyer item
      = (if purchasesOf s.purchases buyer item = [] then [⟨buyer, item, 1⟩]
         else (purchasesOf s.purchases buyer item).map
           fun r => { r with quantity := r.quantity + 1 }) ∧
    quantityOf (ShoppingRepository.Buy env s buyer item).2.purchases buyer item
      = some (match quantityOf s.purchases buyer item with
              | none => 1
              | some q => q + 1) ∧
    ∀ u' i', ¬ (u' = buyer ∧ i' = item) →
      purchasesOf (ShoppingRepository.Buy env s buyer item).2.purchases u' i'
        = purchasesOf s.purchases u' i' := by
  have hrun : ShoppingRepository.Buy env s buyer item =
      (none, { s with
        users := subBalance s.users p buyer,
        purchases := upsertPurchase s.purchases buyer item }) := by
    simp [ShoppingRepository.Buy, henv, Beginx, Tx.Commit, getItemPrice_eq, hp,
      getUserForUpdate_eq, hb, not_lt.mpr hle]
  rw [hrun]
  refine ⟨rfl, rfl, rfl, rfl, ?_, ?_, purchasesOf_upsert_same _ _ _, ?_, ?_⟩
  · simp [balanceOf_subBalance, hb]
  · intro c hc
    simp [balanceOf_subBalance, hc]
  · simp only [quantityOf, purchasesOf_upsert_same]
    cases h : purchasesOf s.purchases buyer item with
    | nil => simp
    | cons r rs => simp
  · intro u' i' hne
    exact purchasesOf_upsert_other _ _ _ _ _ hne

/-- The scenario of C9: `cup` costs 20 and `A` holds 1000; after the purchase `A` holds 980
and owns one `cup`. -/
theorem buy_success_witness :
    (ShoppingRepository.Buy (Env.ok 0) storeAB "A" "cup").1 = none ∧
    balanceOf (ShoppingRepository.Buy (Env.ok 0) storeAB "A" "cup").2.users "A" = some 980 ∧
    purchasesOf (ShoppingRepository.Buy (Env.ok 0) storeAB "A" "cup").2.purchases "A" "cup"
      = [⟨"A", "cup", 1⟩] := by
  have h := buy_success (Env.ok 0) storeAB "A" "cup" 20 1000
    (fun _ => rfl) (by decide) (by decide) (by decide)
  exact ⟨h.1, h.2.2.2.2.1, h.2.2.2.2.2.2.1⟩

/-- C10: starting from a store without purchase records, after any sequence of `Buy` and
`SendCoin` calls every pair `(owner, item)` has at most one purchase record (the key of
`purchases` holds), and there is
one exactly when some `Buy(owner, item)` of the sequence returned `nil`; its quantity is
the number of those calls.  In particular two purchases of the same item by the same
buyer that both return `nil` leave one record with quantity 2 and the balance lower by
twice the price. -/
theorem purchase_aggregation (s : Store) (hs : s.purchases = []) :
    (∀ ops : List Op, PurchasesUnique (runOps s ops).purchases) ∧
    (∀ (ops : List Op) (u i : String),
      (purchasesOf (runOps s ops).purchases u i).length ≤ 1 ∧
      purchasesOf (runOps s ops).purchases u i =
        (if buySuccesses u i s ops = 0 then []
         else [⟨u, i, (buySuccesses u i s ops : Nat)⟩]) ∧
      quantityOf (runOps s ops).purchases u i =
        (if buySuccesses u i s ops = 0 then none
         else some (buySuccesses u i s ops : Nat))) ∧
    (∀ (env₁ env₂ : Env) (u i : String) (p bal : Int),
      priceOf s.items i = some p → balanceOf s.users u = some bal →
      (ShoppingRepository.Buy env₁ s u i).1 = none →
      (ShoppingRepository.Buy env₂ (ShoppingRepository.Buy env₁ s u i).2 u i).1 = none →
      purchasesOf (ShoppingRepository.Buy env₂
          (ShoppingRepository.Buy env₁ s u i).2 u i).2.purchases u i = [⟨u, i, 2⟩] ∧
      balanceOf (ShoppingRepository.Buy env₂
          (ShoppingRepository.Buy env₁ s u i).2 u i).2.users u = some (bal - 2 * p)) := by
  have hshape : ∀ (ops : List Op) (u i : String),
      purchasesOf (runOps s ops).purchases u i =
        (if buySuccesses u i s ops = 0 then []
         else [⟨u, i, (buySuccesses u i s ops : Nat)⟩]) := by
    intro ops u i
    have h := runOps_purchasesOf ops s u i 0 (by simp [hs, purchasesOf])
    simpa using h
  have hlen : ∀ (ops : List Op) (u i : String),
      (purchasesOf (runOps s ops).purchases u i).length ≤ 1 := by
    intro ops u i
    rw [hshape ops u i]; split <;> simp
  refine ⟨fun ops => purchasesUnique_of_length_le _ (hlen ops), ?_, ?_⟩
  · intro ops u i
    have h := hshape ops u i
    refine ⟨hlen ops u i, h, ?_⟩
    rw [quantityOf, h]; split <;> simp
  · intro env₁ env₂ u i p bal hp hb h1 h2
    have hq := hshape [.buy env₁ u i, .buy env₂ u i] u i
    simp only [runOps, Op.run, buySuccesses, h1, h2, and_self, if_true] at hq
    refine ⟨by simpa using hq, ?_⟩
    rcases buy_cases env₁ s u i with ⟨e, he⟩ | ⟨p₁, bal₁, hp₁, hb₁, _, hrun₁⟩
    · rw [he] at h1; cases h1
    · rw [hp] at hp₁; rw [hb] at hb₁
      cases hp₁; cases hb₁
      rcases buy_cases env₂ (ShoppingRepository.Buy env₁ s u i).2 u i with
        ⟨e, he⟩ | ⟨p₂, bal₂, hp₂, hb₂, _, hrun₂⟩
      · rw [he] at h2; cases h2
      · rw [hrun₂]
        rw [hrun₁] at hp₂ ⊢
        simp only [] at hp₂ ⊢
        rw [hp] at hp₂
        cases hp₂
        simp only [balanceOf_subBalance, if_true, hb, Option.map_some']
        congr 1
        ring

/-- The scenario of C10: `A` buys `cup` twice in `storeAB`, which has no purchase record;
one record with quantity 2 results, and the balance goes from 1000 to 960. -/
theorem purchase_aggregation_witness :
    purchasesOf (ShoppingRepository.Buy (Env.ok 1)
        (ShoppingRepository.Buy (Env.ok 0) storeAB "A" "cup").2 "A" "cup").2.purchases
        "A" "cup" = [⟨"A", "cup", 2⟩] ∧
    balanceOf (ShoppingRepository.Buy (Env.ok 1)
        (ShoppingRepository.Buy (Env.ok 0) storeAB "A" "cup").2 "A" "cup").2.users "A"
        = some (1000 - 2 * 20) :=
  (purchase_aggregation storeAB rfl).2.2 (Env.ok 0) (Env.ok 1) "A" "cup" 20 1000
    (by decide) (by decide) (by decide) (by decide)

/-! ## The claims on failing purchases -/

/-- C11: when the item is in the catalog with price `p` and the buyer has an account with
a balance below `p` (and the transaction can be opened and both rows read), `Buy` fails
with `NotEnoughMoneyError`, status 400 and message "not enough money", and the store,
so the balance of the buyer and the purchase records, is unchanged. -/
theorem buy_not_enough_money (env : Env) (s : Store) (buyer item : String) (p bal : Int)
    (hbegin : env.fault .begin = none) (hitem : env.fault .getItemPrice = none)
    (hget : env.fault .getUser = none) (hp : priceOf s.items item = some p)
    (hb : balanceOf s.users buyer = some bal) (hlt : bal < p) :
    ShoppingRepository.Buy env s buyer item =
      (some (NewAPIErrorWithMsg NotEnoughMoneyError
        "repository.shopping.Buy: (failed get user): not enough money"), s) ∧
    (∀ e, (ShoppingRepository.Buy env s buyer item).1 = some e →
      GetAPIError e = NotEnoughMoneyError ∧ (GetAPIError e).Status = 400 ∧
      (GetAPIError e).Message = "not enough money") ∧
    balanceOf (ShoppingRepository.Buy env s buyer item).2.users buyer = some bal ∧
    (ShoppingRepository.Buy env s buyer item).2.purchases = s.purchases := by
  have hrun : ShoppingRepository.Buy env s buyer item =
      (some (NewAPIErrorWithMsg NotEnoughMoneyError
        "repository.shopping.Buy: (failed get user): not enough money"), s) := by
    simp [ShoppingRepository.Buy, hbegin, hitem, hget, Beginx, Tx.Rollback, getItemPrice_eq,
      hp, getUserForUpdate_eq, hb, hlt]
  rw [hrun]
  refine ⟨rfl, ?_, hb, rfl⟩
  intro e he
  cases he
  exact ⟨rfl, rfl, rfl⟩

/-- In `storePoor` the account `A` holds 15 and a `cup` costs 20: the purchase fails
with "not enough money" and nothing changes. -/
theorem buy_not_enough_money_witness :
    ShoppingRepository.Buy (Env.ok 0) storePoor "A" "cup" =
      (some (NewAPIErrorWithMsg NotEnoughMoneyError
        "repository.shopping.Buy: (failed get user): not enough money"), storePoor) :=
  (buy_not_enough_money (Env.ok 0) storePoor "A" "cup" 20 15 rfl rfl rfl
    (by decide) (by decide) (by decide)).1

/-- C12: when the item is not in the catalog (and the transaction can be opened and the
catalog read), `Buy` fails with `InvalidItemError`, status 400 and message
"no such item exists", and the store is unchanged; the error does not mention the
buyer, so it is the same for every buyer and for every table of accounts. -/
theorem buy_unknown_item (env : Env) (s : Store) (item : String)
    (hbegin : env.fault .begin = none) (hitem : env.fault .getItemPrice = none)
    (hp : priceOf s.items item = none) :
    (∀ buyer, ShoppingRepository.Buy env s buyer item =
      (some (NewAPIError InvalidItemError
        (.wrapf .errNoRows "repository.shopping.Buy: (failed find item)")), s)) ∧
    GetAPIError (NewAPIError InvalidItemError
        (.wrapf .errNoRows "repository.shopping.Buy: (failed find item)"))
      = ⟨400, "no such item exists"⟩ ∧
    (∀ (buyer₁ buyer₂ : String) (users : List UserRow),
      (ShoppingRepository.Buy env s buyer₁ item).1
        = (ShoppingRepository.Buy env { s with users := users } buyer₂ item).1) := by
  have hrun : ∀ (s' : Store) (buyer : String), priceOf s'.items item = none →
      ShoppingRepository.Buy env s' buyer item =
        (some (NewAPIError InvalidItemError
          (.wrapf .errNoRows "repository.shopping.Buy: (failed find item)")), s') := by
    intro s' buyer hp'
    simp [ShoppingRepository.Buy, hbegin, hitem, Beginx, Tx.Rollback, getItemPrice_eq, hp',
      isErrNoRows]
  refine ⟨fun buyer => hrun s buyer hp, rfl, ?_⟩
  intro b₁ b₂ users
  rw [hrun s b₁ hp, hrun { s with users := users } b₂ hp]

/-- The item `something` is not in the catalog of `storeAB`: the purchase fails with
"no such item exists" for the account `A` and for the unknown `whoever` alike. -/
theorem buy_unknown_item_witness :
    ShoppingRepository.Buy (Env.ok 0) storeAB "A" "something" =
      (some (NewAPIError InvalidItemError
        (.wrapf .errNoRows "repository.shopping.Buy: (failed find item)")), storeAB) ∧
    ShoppingRepository.Buy (Env.ok 0) storeAB "whoever" "something" =
      (some (NewAPIError InvalidItemError
        (.wrapf .errNoRows "repository.shopping.Buy: (failed find item)")), storeAB) :=
  ⟨(buy_unknown_item (Env.ok 0) storeAB "something" rfl rfl (by decide)).1 "A",
   (buy_unknown_item (Env.ok 0) storeAB "something" rfl rfl (by decide)).1 "whoever"⟩

/-- C13: when the item is in the catalog and the buyer has no account, `Buy` fails, in
every environment, `GetAPIError` classifies the error as `InternalError` (status 500,
message "internal error"), also after the wrapping by `ShopService.Buy`, and the
store is unchanged. -/
theorem buy_unknown_user (env : Env) (s : Store) (buyer item : String) (p : Int)
    (hp : priceOf s.items item = some p) (hb : balanceOf s.users buyer = none) :
    ∃ e, ShoppingRepository.Buy env s buyer item = (some e, s) ∧
      GetAPIError e = ⟨500, "internal error"⟩ ∧
      ShopService.Buy env s buyer item = (some (.wrapf e "service.shop.Buy"), s) ∧
      GetAPIError (.wrapf e "service.shop.Buy") = InternalError := by
  have hrun : ∃ e, ShoppingRepository.Buy env s buyer item = (some e, s) ∧
      GetAPIError e = ⟨500, "internal error"⟩ := by
    unfold ShoppingRepository.Buy
    simp only [Beginx, Tx.Rollback, getItemPrice_eq, hp, getUserForUpdate_eq, hb]
    cases h1 : env.fault .begin with
    | some e => exact ⟨_, rfl, rfl⟩
    | none =>
      cases h2 : env.fault .getItemPrice with
      | some e => simp only [isErrNoRows]; exact ⟨_, rfl, rfl⟩
      | none =>
        cases h3 : env.fault .getUser with
        | some e => exact ⟨_, rfl, rfl⟩
        | none => exact ⟨_, rfl, rfl⟩
  obtain ⟨e, he, hk⟩ := hrun
  refine ⟨e, he, hk, ?_, hk⟩
  simp only [ShopService.Buy, he]

/-- The scenario of C13: the user `whoever` has no account in `storeAB` and buys a
`cup`; the error is an internal one and nothing changes. -/
theorem buy_unknown_user_witness :
    ∃ e, ShoppingRepository.Buy (Env.ok 0) storeAB "whoever" "cup" = (some e, storeAB) ∧
      GetAPIError e = ⟨500, "internal error"⟩ ∧
      ShopService.Buy (Env.ok 0) storeAB "whoever" "cup"
        = (some (.wrapf e "service.shop.Buy"), storeAB) ∧
      GetAPIError (.wrapf e "service.shop.Buy") = InternalError :=
  buy_unknown_user (Env.ok 0) storeAB "whoever" "cup" 20 (by decide) (by decide)

/-! ## The claims on validation and on error classification -/

/-- The handler with the real service is the handler over `ShopService.SendCoin`. -/
theorem handler_sendCoin_eq_with (env : Env) (s : Store) (ctx : Option CtxValue)
    (body : Except GoError Send) :
    Handler.SendCoin env s ctx body = Handler.SendCoinWith (ShopService.SendCoin env) s ctx body :=
  rfl

/-- C15: `validateSendCoinInput` returns `nil` exactly when the amount is positive, the
receiver is non-empty and differs from the username; otherwise it returns a
`BadRequestError` (status 400) whose `Error()` text is "bad request error: " followed by
the message of the first failing check, in the order amount, empty receiver, own name;
and when it returns an error `Handler.SendCoin` answers 400 with the store unchanged
whatever its service is, so the service is not called. -/
theorem validateSendCoinInput_spec (input : Send) (username : String) :
    (validateSendCoinInput input username = none ↔
      (0 < input.Amount ∧ input.ToUser ≠ "" ∧ input.ToUser ≠ username)) ∧
    (input.Amount ≤ 0 →
      validateSendCoinInput input username
        = some (NewAPIErrorWithMsg BadRequestError "invalid amount of coin")) ∧
    (0 < input.Amount → input.ToUser = "" →
      validateSendCoinInput input username
        = some (NewAPIErrorWithMsg BadRequestError "empty receiver")) ∧
    (0 < input.Amount → input.ToUser ≠ "" → input.ToUser = username →
      validateSendCoinInput input username
        = some (NewAPIErrorWithMsg BadRequestError "can't send to yourself")) ∧
    (NewAPIErrorWithMsg BadRequestError "invalid amount of coin").Error
        = "bad request error: invalid amount of coin" ∧
    (NewAPIErrorWithMsg BadRequestError "empty receiver").Error
        = "bad request error: empty receiver" ∧
    (NewAPIErrorWithMsg BadRequestError "can't send to yourself").Error
        = "bad request error: can't send to yourself" ∧
    (∀ e, validateSendCoinInput input username = some e →
      GetAPIError e = BadRequestError ∧ (GetAPIError e).Status = 400 ∧
      ∀ (svc : SendCoinService) (s : Store) (ctx : Option CtxValue),
        getUsername ctx = .ok username →
        Handler.SendCoinWith svc s ctx (.ok input) = (⟨400, some "bad request error"⟩, s)) := by
  have hkind : ∀ e, validateSendCoinInput input username = some e →
      GetAPIError e = BadRequestError := by
    intro e he
    unfold validateSendCoinInput at he
    split_ifs at he <;> cases he <;> rfl
  refine ⟨?_, ?_, ?_, ?_, by decide, by decide, by decide, ?_⟩
  · unfold validateSendCoinInput
    constructor
    · intro h
      split_ifs at h with h1 h2 h3
      exact ⟨not_le.mp h1, h2, fun e => h3 e.symm⟩
    · rintro ⟨h1, h2, h3⟩
      rw [if_neg (not_le.mpr h1), if_neg h2, if_neg (fun e => h3 e.symm)]
  · intro h
    unfold validateSendCoinInput
    rw [if_pos h]
  · intro h1 h2
    unfold validateSendCoinInput
    rw [if_neg (not_le.mpr h1), if_pos h2]
  · intro h1 h2 h3
    unfold validateSendCoinInput
    rw [if_neg (not_le.mpr h1), if_neg h2, if_pos h3.symm]
  · intro e he
    have hk := hkind e he
    refine ⟨hk, by rw [hk]; rfl, ?_⟩
    intro svc s ctx hctx
    simp only [Handler.SendCoinWith, hctx, he, LogAndRespondError, GetAPIError, hk]
    rfl

/-- The three rejected inputs of the handler test, and the answer of the handler to the
first of them over a service that would empty the store. -/
theorem validateSendCoinInput_spec_witness :
    validateSendCoinInput ⟨"toUser", -100⟩ "username"
      = some (NewAPIErrorWithMsg BadRequestError "invalid amount of coin") ∧
    validateSendCoinInput ⟨"", 100⟩ "username"
      = some (NewAPIErrorWithMsg BadRequestError "empty receiver") ∧
    validateSendCoinInput ⟨"username", 100⟩ "username"
      = some (NewAPIErrorWithMsg BadRequestError "can't send to yourself") ∧
    Handler.SendCoinWith (fun _ _ _ => (none, ⟨[], [], [], []⟩)) storeAB
        (some (.str "username")) (.ok ⟨"toUser", -100⟩)
      = (⟨400, some "bad request error"⟩, storeAB) :=
  ⟨(validateSendCoinInput_spec ⟨"toUser", -100⟩ "username").2.1 (by decide),
   (validateSendCoinInput_spec ⟨"", 100⟩ "username").2.2.1 (by decide) rfl,
   (validateSendCoinInput_spec ⟨"username", 100⟩ "username").2.2.2.1 (by decide) (by decide) rfl,
   ((validateSendCoinInput_spec ⟨"toUser", -100⟩ "username").2.2.2.2.2.2.2
     (NewAPIErrorWithMsg BadRequestError "invalid amount of coin") (by decide)).2.2
     _ storeAB (some (.str "username")) rfl⟩

/-- Every error of `SendCoin` carries an `APIError`, of kind `InternalError` or
`NotEnoughMoneyError`. -/
theorem sendCoin_error_kind (env : Env) (s : Store) (a b : String) (amount : Int) (e : GoError)
    (h : (ShoppingRepository.SendCoin env s a b amount).1 = some e) :
    hasAPIError e = true ∧
      (GetAPIError e = InternalError ∨ GetAPIError e = NotEnoughMoneyError) := by
  unfold ShoppingRepository.SendCoin at h
  simp only [Beginx, Tx.Rollback, Tx.Commit, getLockedUser_eq] at h
  cases h1 : env.fault .begin with
  | some x => rw [h1] at h; cases h; exact ⟨rfl, Or.inl rfl⟩
  | none =>
    rw [h1] at h
    cases h2 : env.fault .getUser with
    | some x => rw [h2] at h; cases h; exact ⟨rfl, Or.inl rfl⟩
    | none =>
      rw [h2] at h
      cases hb : balanceOf s.users a with
      | none => rw [hb] at h; cases h; exact ⟨rfl, Or.inl rfl⟩
      | some bs =>
        rw [hb] at h
        by_cases hlt : bs < amount
        · simp only [hlt, if_true] at h; cases h; exact ⟨rfl, Or.inr rfl⟩
        · simp only [hlt, if_false] at h
          cases h3 : env.fault .execSend with
          | some x => rw [h3] at h; cases h; exact ⟨rfl, Or.inl rfl⟩
          | none =>
            rw [h3] at h
            cases h4 : env.fault .execReceive with
            | some x => rw [h4] at h; cases h; exact ⟨rfl, Or.inl rfl⟩
            | none =>
              rw [h4] at h
              cases h5 : env.fault .execAddTransaction with
              | some x => rw [h5] at h; cases h; exact ⟨rfl, Or.inl rfl⟩
              | none =>
                rw [h5] at h
                cases h6 : env.fault .commit with
                | some x => rw [h6] at h; cases h; exact ⟨rfl, Or.inl rfl⟩
                | none => rw [h6] at h; cases h

/-- Every error of `Buy` carries an `APIError`, of kind `InternalError`,
`InvalidItemError` or `NotEnoughMoneyError`. -/
theorem buy_error_kind (env : Env) (s : Store) (u i : String) (e : GoError)
    (h : (ShoppingRepository.Buy env s u i).1 = some e) :
    hasAPIError e = true ∧
      (GetAPIError e = InternalError ∨ GetAPIError e = InvalidItemError ∨
        GetAPIError e = NotEnoughMoneyError) := by
  unfold ShoppingRepository.Buy at h
  simp only [Beginx, Tx.Rollback, Tx.Commit, getItemPrice_eq, getUserForUpdate_eq] at h
  cases h1 : env.fault .begin with
  | some x => rw [h1] at h; cases h; exact ⟨rfl, Or.inl rfl⟩
  | none =>
    rw [h1] at h
    cases h2 : env.fault .getItemPrice with
    | some x =>
      rw [h2] at h; simp only [isErrNoRows] at h; cases h; exact ⟨rfl, Or.inl rfl⟩
    | none =>
      rw [h2] at h
      cases hp : priceOf s.items i with
      | none =>
        rw [hp] at h; simp only [isErrNoRows] at h; cases h
        exact ⟨rfl, Or.inr (Or.inl rfl)⟩
      | some p =>
        rw [hp] at h
        cases h3 : env.fault .getUser with
        | some x => rw [h3] at h; cases h; exact ⟨rfl, Or.inl rfl⟩
        | none =>
          rw [h3] at h
          cases hb : balanceOf s.users u with
          | none => rw [hb] at h; cases h; exact ⟨rfl, Or.inl rfl⟩
          | some bal =>
            rw [hb] at h
            by_cases hlt : bal < p
            · simp only [hlt, if_true] at h; cases h; exact ⟨rfl, Or.inr (Or.inr rfl)⟩
            · simp only [hlt, if_false] at h
              cases h4 : env.fault .execBuy with
              | some x => rw [h4] at h; cases h; exact ⟨rfl, Or.inl rfl⟩
              | none =>
                rw [h4] at h
                cases h5 : env.fault .execAddPurchases with
                | some x => rw [h5] at h; cases h; exact ⟨rfl, Or.inl rfl⟩
                | none =>
                  rw [h5] at h
                  cases h6 : env.fault .commit with
                  | some x => rw [h6] at h; cases h; exact ⟨rfl, Or.inl rfl⟩
                  | none => rw [h6] at h; cases h

/-- An error whose chain holds no `APIError` is classified as `InternalError`. -/
theorem getAPIError_of_no_apiError (err : GoError) (h : hasAPIError err = false) :
    GetAPIError err = InternalError := by
  induction err with
  | errNoRows => rfl
  | driver msg => rfl
  | wrapf inner msg ih => exact ih h
  | api e wrapped _ => cases h

theorem service_sendCoin_eq (env : Env) (s : Store) (username : String) (send : Send) :
    ShopService.SendCoin env s username send =
      ((ShoppingRepository.SendCoin env s username send.ToUser send.Amount).1.map
          (GoError.wrapf · "service.shop.SendCoin"),
        (ShoppingRepository.SendCoin env s username send.ToUser send.Amount).2) := by
  unfold ShopService.SendCoin
  rcases ShoppingRepository.SendCoin env s username send.ToUser send.Amount with ⟨_ | e, s'⟩ <;> rfl

theorem service_buy_eq (env : Env) (s : Store) (username item : String) :
    ShopService.Buy env s username item =
      ((ShoppingRepository.Buy env s username item).1.map (GoError.wrapf · "service.shop.Buy"),
        (ShoppingRepository.Buy env s username item).2) := by
  unfold ShopService.Buy
  rcases ShoppingRepository.Buy env s username item with ⟨_ | e, s'⟩ <;> rfl

/-! ### C18, C19, C20 -/

/-- C18, as stated, fails: in `storeAB` the identity `ghost` has no account and
`GetCoinsAmount` fails for it with an error of the same status and message, 500
"internal error", as the error of a failed read of the existing account `A`. -/
theorem getCoinsAmount_counterexample :
    balanceOf storeAB.users "ghost" = none ∧
    ∃ e e', InfoRepository.GetCoinsAmount none storeAB "ghost" = .error e ∧
      InfoRepository.GetCoinsAmount (some "connection lost") storeAB "A" = .error e' ∧
      GetAPIError e = GetAPIError e' ∧ GetAPIError e = InternalError ∧
      LogAndRespondError e = LogAndRespondError e' :=
  ⟨by decide, _, _, rfl, rfl, rfl, rfl, rfl⟩

/-- C18, amended: `GetCoinsAmount` returns the stored balance of every existing account
when the read does not fail; for an identity without an account, and for a failed
read, it returns an error that `GetAPIError` classifies as `InternalError`, status 500
and message "internal error", in both cases. -/
theorem getCoinsAmount_spec (s : Store) (username : String) :
    (∀ balance, balanceOf s.users username = some balance →
      InfoRepository.GetCoinsAmount none s username = .ok balance) ∧
    (balanceOf s.users username = none →
      ∀ fault, ∃ e, InfoRepository.GetCoinsAmount fault s username = .error e ∧
        GetAPIError e = ⟨500, "internal error"⟩) ∧
    (∀ msg, ∃ e, InfoRepository.GetCoinsAmount (some msg) s username = .error e ∧
      GetAPIError e = ⟨500, "internal error"⟩) := by
  refine ⟨?_, ?_, ?_⟩
  · intro balance hb
    simp only [InfoRepository.GetCoinsAmount, hb]
  · intro hb fault
    cases fault with
    | none =>
      refine ⟨NewAPIError InternalError
        (.wrapf .errNoRows "repository.info.GetCoinsAmount: (failed get user's balance)"), ?_, rfl⟩
      simp only [InfoRepository.GetCoinsAmount, hb]
    | some msg => exact ⟨_, rfl, rfl⟩
  · intro msg
    exact ⟨_, rfl, rfl⟩

/-- In `storeAB` the balance of `A` is read as 1000, and the identity `ghost` gets an
internal error. -/
theorem getCoinsAmount_spec_witness :
    InfoRepository.GetCoinsAmount none storeAB "A" = .ok 1000 ∧
    ∃ e, InfoRepository.GetCoinsAmount none storeAB "ghost" = .error e ∧
      GetAPIError e = ⟨500, "internal error"⟩ :=
  ⟨(getCoinsAmount_spec storeAB "A").1 1000 (by decide),
   (getCoinsAmount_spec storeAB "ghost").2.1 (by decide) none⟩

/-- C19: the response written by `LogAndRespondError` has the status of the classified
error and a body holding only its message; so errors of the same kind get the same
response whatever they wrap and however they are wrapped, and an error without an
`APIError` in its chain gets status 500 and the message "internal error". -/
theorem no_internal_detail_leaked :
    (∀ err, LogAndRespondError err
      = ⟨(GetAPIError err).Status, some (GetAPIError err).Message⟩) ∧
    (∀ e₁ e₂, GetAPIError e₁ = GetAPIError e₂ → LogAndRespondError e₁ = LogAndRespondError e₂) ∧
    (∀ (k : APIError) (w₁ w₂ : GoError),
      LogAndRespondError (.api k w₁) = LogAndRespondError (.api k w₂)) ∧
    (∀ (err : GoError) (msg : String),
      LogAndRespondError (.wrapf err msg) = LogAndRespondError err) ∧
    (∀ err, hasAPIError err = false →
      LogAndRespondError err = ⟨500, some "internal error"⟩) := by
  refine ⟨fun _ => rfl, ?_, fun _ _ _ => rfl, fun _ _ => rfl, ?_⟩
  · intro e₁ e₂ h
    simp only [LogAndRespondError, h]
  · intro err h
    simp only [LogAndRespondError, getAPIError_of_no_apiError err h]
    rfl

/-- Two internal errors with different causes and wrapping get the same response, and a
bare driver error gets 500 "internal error". -/
theorem no_internal_detail_leaked_witness :
    LogAndRespondError (.wrapf (NewAPIError InternalError
        (.wrapf (.driver "pq: password authentication failed") "repository: (failed commit)"))
        "handler.shop.Buy: error while buying item")
      = LogAndRespondError (NewAPIErrorWithMsg InternalError "salt is empty") ∧
    LogAndRespondError (.wrapf (.driver "dial tcp 10.0.0.5:5432: connection refused") "ping")
      = ⟨500, some "internal error"⟩ :=
  ⟨no_internal_detail_leaked.2.1 _ _ rfl, no_internal_detail_leaked.2.2.2.2 _ rfl⟩

/-- C20: `ShopService.SendCoin` and `ShopService.Buy` return `nil` exactly when the
repository does; otherwise they return the error of the repository wrapped with the
operation name, from which `GetAPIError` recovers the same status and message.  The
wrapping keeps the classification of any error, `NewAPIError` and `NewAPIErrorWithMsg`
yield the kind they are given, and every error of the repository carries exactly one
of the kinds `InternalError`, `InvalidItemError` (only `Buy`) and
`NotEnoughMoneyError`. -/
theorem classification_preserved (env : Env) (s : Store) (username : String) (send : Send)
    (item : String) :
    (((ShopService.SendCoin env s username send).1 = none ↔
        (ShoppingRepository.SendCoin env s username send.ToUser send.Amount).1 = none) ∧
      ∀ e, (ShoppingRepository.SendCoin env s username send.ToUser send.Amount).1 = some e →
        (ShopService.SendCoin env s username send).1 = some (.wrapf e "service.shop.SendCoin") ∧
        GetAPIError (.wrapf e "service.shop.SendCoin") = GetAPIError e ∧
        hasAPIError (.wrapf e "service.shop.SendCoin") = true ∧
        (GetAPIError e = InternalError ∨ GetAPIError e = NotEnoughMoneyError)) ∧
    (((ShopService.Buy env s username item).1 = none ↔
        (ShoppingRepository.Buy env s username item).1 = none) ∧
      ∀ e, (ShoppingRepository.Buy env s username item).1 = some e →
        (ShopService.Buy env s username item).1 = some (.wrapf e "service.shop.Buy") ∧
        GetAPIError (.wrapf e "service.shop.Buy") = GetAPIError e ∧
        hasAPIError (.wrapf e "service.shop.Buy") = true ∧
        (GetAPIError e = InternalError ∨ GetAPIError e = InvalidItemError ∨
          GetAPIError e = NotEnoughMoneyError)) ∧
    (∀ (e : GoError) (msg : String),
      GetAPIError (.wrapf e msg) = GetAPIError e ∧ hasAPIError (.wrapf e msg) = hasAPIError e) ∧
    (∀ (k : APIError) (err : GoError),
      GetAPIError (NewAPIError k err) = k ∧ hasAPIError (NewAPIError k err) = true) ∧
    (∀ (k : APIError) (msg : String),
      GetAPIError (NewAPIErrorWithMsg k msg) = k ∧
      hasAPIError (NewAPIErrorWithMsg k msg) = true) := by
  refine ⟨⟨?_, ?_⟩, ⟨?_, ?_⟩, fun _ _ => ⟨rfl, rfl⟩, fun _ _ => ⟨rfl, rfl⟩,
    fun _ _ => ⟨rfl, rfl⟩⟩
  · rw [service_sendCoin_eq]; simp
  · intro e he
    have hk := sendCoin_error_kind env s username send.ToUser send.Amount e he
    refine ⟨?_, rfl, hk.1, hk.2⟩
    rw [service_sendCoin_eq]; simp only [he, Option.map_some']
  · rw [service_buy_eq]; simp
  · intro e he
    have hk := buy_error_kind env s username item e he
    refine ⟨?_, rfl, hk.1, hk.2⟩
    rw [service_buy_eq]; simp only [he, Option.map_some']

/-- A transfer of 50000 from `A`, who holds 1000: the service returns the error of the
repository wrapped, still classified as "not enough money". -/
theorem classification_preserved_witness :
    (ShopService.SendCoin (Env.ok 0) storeAB "A" ⟨"B", 50000⟩).1
      = some (.wrapf (NewAPIErrorWithMsg NotEnoughMoneyError
          "repository.shopping.SendCoin: (failed get user): not enough money")
          "service.shop.SendCoin") :=
  ((classification_preserved (Env.ok 0) storeAB "A" ⟨"B", 50000⟩ "cup").1.2 _ (by decide)).1

/-! ## The history of transfers -/

theorem sendCoin_transactions (env : Env) (s : Store) (a b : String) (amount : Int) :
    (ShoppingRepository.SendCoin env s a b amount).2.transactions =
      s.transactions ++
        (if (ShoppingRepository.SendCoin env s a b amount).1 = none
          then [⟨a, b, amount, env.now⟩] else []) := by
  rcases sendCoin_cases env s a b amount with ⟨e, he⟩ | ⟨bs, _, _, hrun⟩
  · simp [he]
  · simp [hrun, insertTransaction]

theorem buy_transactions (env : Env) (s : Store) (u i : String) :
    (ShoppingRepository.Buy env s u i).2.transactions = s.transactions := by
  rcases buy_cases env s u i with ⟨e, he⟩ | ⟨p, bal, _, _, _, hrun⟩
  · rw [he]
  · rw [hrun]

theorem committedRecords_cons (s : Store) (op : Op) (ops : List Op) :
    committedRecords s (op :: ops) =
      (match op with
        | .sendCoin env a b amount =>
          if (op.run s).1 = none then [⟨a, b, amount, env.now⟩] else []
        | .buy _ _ _ => []) ++ committedRecords (op.run s).2 ops := rfl

/-- The log after a sequence of calls is the log before it followed by the records of the
transfers that returned `nil`, in the order of the calls. -/
theorem runOps_transactions (ops : List Op) (s : Store) :
    (runOps s ops).transactions = s.transactions ++ committedRecords s ops := by
  induction ops generalizing s with
  | nil => simp [runOps, committedRecords]
  | cons op ops ih =>
    rw [runOps, ih, committedRecords_cons, ← List.append_assoc]
    congr 1
    cases op with
    | sendCoin env a b amount => simp only [Op.run]; exact sendCoin_transactions env s a b amount
    | buy env u i => simp only [Op.run, buy_transactions, List.append_nil]

theorem committedRecords_of_allSucceed (ops : List Op) (s : Store) (h : allSucceed s ops) :
    committedRecords s ops = recordsOf ops := by
  induction ops generalizing s with
  | nil => rfl
  | cons op ops ih =>
    obtain ⟨h1, h2⟩ := h
    rw [committedRecords_cons, recordsOf, ih _ h2]
    congr 1
    cases op with
    | sendCoin env a b amount => simp only [h1, if_true, Op.record]
    | buy env u i => rfl

/-- Rows with strictly increasing timestamps are in `ORDER BY created_at` order already. -/
theorem orderByCreatedAt_of_increasing (rows : List TransactionRow)
    (h : rows.Pairwise fun x y => x.created_at < y.created_at) :
    orderByCreatedAt rows = rows := by
  unfold orderByCreatedAt
  apply List.Sorted.insertionSort_eq
  exact List.Pairwise.imp (fun hxy => Nat.le_of_lt hxy) h

/-- Rows with strictly increasing timestamps have one `ORDER BY created_at` answer only. -/
theorem isOrderedByCreatedAt_unique (rows out : List TransactionRow)
    (h : rows.Pairwise fun x y => x.created_at < y.created_at)
    (ho : IsOrderedByCreatedAt rows out) : out = rows := by
  obtain ⟨hperm, hsorted⟩ := ho
  have hne : rows.Pairwise fun x y => x.created_at ≠ y.created_at :=
    List.Pairwise.imp (fun hxy => Nat.ne_of_lt hxy) h
  have hne' : out.Pairwise fun x y => x.created_at ≠ y.created_at :=
    (List.Perm.pairwise_iff (fun {x y} (hxy : x.created_at ≠ y.created_at) => hxy.symm)
      hperm).mpr hne
  have hlt : out.Pairwise fun x y => x.created_at < y.created_at :=
    List.Pairwise.imp₂ (fun {x y} (h1 : x.created_at ≤ y.created_at) h2 =>
      Nat.lt_of_le_of_ne h1 h2) hsorted hne'
  haveI : IsAntisymm TransactionRow (fun x y => x.created_at < y.created_at) :=
    ⟨fun a b h1 h2 => absurd h1 (Nat.lt_asymm h2)⟩
  exact List.eq_of_perm_of_sorted hperm hlt h

/-- The answer `orderByCreatedAt` gives is an `ORDER BY created_at` answer. -/
theorem isOrderedByCreatedAt_orderByCreatedAt (rows : List TransactionRow) :
    IsOrderedByCreatedAt rows (orderByCreatedAt rows) := by
  haveI : IsTotal TransactionRow (fun x y => x.created_at ≤ y.created_at) :=
    ⟨fun a b => Nat.le_total a.created_at b.created_at⟩
  haveI : IsTrans TransactionRow (fun x y => x.created_at ≤ y.created_at) :=
    ⟨fun a b c h1 h2 => Nat.le_trans h1 h2⟩
  exact ⟨List.perm_insertionSort _ rows, List.sorted_insertionSort _ rows⟩

/-- C16: starting from an empty log, after any sequence of calls `GetCoinSentHistory(u)`
returns the `(receiver, amount)` pairs of exactly the transfers sent by `u` that
returned `nil`, and `GetCoinReceivedHistory(u)` the `(sender, amount)` pairs of exactly
those received by `u`, in ascending order of `created_at`.  When the timestamps of the
committed transfers increase strictly along the sequence this is the order of the
calls, and no other answer is in `ORDER BY created_at` order.  When every call returns
`nil` the committed transfers are all the `SendCoin` calls of the sequence. -/
theorem history_order (s : Store) (ops : List Op) (u : String) (hs : s.transactions = []) :
    (HistoryRepository.GetCoinSentHistory none (runOps s ops) u
        = .ok ((orderByCreatedAt ((committedRecords s ops).filter
            fun t => decide (t.sender = u))).map fun t => ⟨t.receiver, t.amount⟩) ∧
      IsOrderedByCreatedAt ((committedRecords s ops).filter fun t => decide (t.sender = u))
        (orderByCreatedAt ((committedRecords s ops).filter fun t => decide (t.sender = u)))) ∧
    (HistoryRepository.GetCoinReceivedHistory none (runOps s ops) u
        = .ok ((orderByCreatedAt ((committedRecords s ops).filter
            fun t => decide (t.receiver = u))).map fun t => ⟨t.sender, t.amount⟩) ∧
      IsOrderedByCreatedAt ((committedRecords s ops).filter fun t => decide (t.receiver = u))
        (orderByCreatedAt ((committedRecords s ops).filter fun t => decide (t.receiver = u)))) ∧
    ((committedRecords s ops).Pairwise (fun x y => x.created_at < y.created_at) →
      HistoryRepository.GetCoinSentHistory none (runOps s ops) u
        = .ok (((committedRecords s ops).filter fun t => decide (t.sender = u)).map
            fun t => ⟨t.receiver, t.amount⟩) ∧
      HistoryRepository.GetCoinReceivedHistory none (runOps s ops) u
        = .ok (((committedRecords s ops).filter fun t => decide (t.receiver = u)).map
            fun t => ⟨t.sender, t.amount⟩) ∧
      (∀ out, IsOrderedByCreatedAt
          ((runOps s ops).transactions.filter fun t => decide (t.sender = u)) out →
        out = (committedRecords s ops).filter fun t => decide (t.sender = u)) ∧
      (∀ out, IsOrderedByCreatedAt
          ((runOps s ops).transactions.filter fun t => decide (t.receiver = u)) out →
        out = (committedRecords s ops).filter fun t => decide (t.receiver = u))) ∧
    (allSucceed s ops → committedRecords s ops = recordsOf ops) := by
  have hlog : (runOps s ops).transactions = committedRecords s ops := by
    rw [runOps_transactions, hs, List.nil_append]
  refine ⟨⟨?_, isOrderedByCreatedAt_orderByCreatedAt _⟩,
    ⟨?_, isOrderedByCreatedAt_orderByCreatedAt _⟩, ?_, committedRecords_of_allSucceed ops s⟩
  · simp only [HistoryRepository.GetCoinSentHistory, hlog]
  · simp only [HistoryRepository.GetCoinReceivedHistory, hlog]
  · intro hclock
    have hsent := List.Pairwise.filter (fun t : TransactionRow => decide (t.sender = u)) hclock
    have hrecv :=
      List.Pairwise.filter (fun t : TransactionRow => decide (t.receiver = u)) hclock
    refine ⟨?_, ?_, ?_, ?_⟩
    · simp only [HistoryRepository.GetCoinSentHistory, hlog,
        orderByCreatedAt_of_increasing _ hsent]
    · simp only [HistoryRepository.GetCoinReceivedHistory, hlog,
        orderByCreatedAt_of_increasing _ hrecv]
    · intro out ho
      rw [hlog] at ho
      exact isOrderedByCreatedAt_unique _ out hsent ho
    · intro out ho
      rw [hlog] at ho
      exact isOrderedByCreatedAt_unique _ out hrecv ho

/-- Three transfers between `A` and `B` at times 1, 2 and 3, the second one back to `A`:
`A` has sent 100 and then 7 to `B`, and has received 50 from `B`. -/
theorem history_order_witness :
    HistoryRepository.GetCoinSentHistory none
        (runOps storeAB [.sendCoin (Env.ok 1) "A" "B" 100, .sendCoin (Env.ok 2) "B" "A" 50,
          .sendCoin (Env.ok 3) "A" "B" 7]) "A"
      = .ok [⟨"B", 100⟩, ⟨"B", 7⟩] ∧
    HistoryRepository.GetCoinReceivedHistory none
        (runOps storeAB [.sendCoin (Env.ok 1) "A" "B" 100, .sendCoin (Env.ok 2) "B" "A" 50,
          .sendCoin (Env.ok 3) "A" "B" 7]) "A"
      = .ok [⟨"B", 50⟩] :=
  ⟨((history_order storeAB [.sendCoin (Env.ok 1) "A" "B" 100, .sendCoin (Env.ok 2) "B" "A" 50,
      .sendCoin (Env.ok 3) "A" "B" 7] "A" rfl).2.2.1 (by decide)).1,
   ((history_order storeAB [.sendCoin (Env.ok 1) "A" "B" 100, .sendCoin (Env.ok 2) "B" "A" 50,
      .sendCoin (Env.ok 3) "A" "B" 7] "A" rfl).2.2.1 (by decide)).2.1⟩

/-! ## Account creation -/

theorem passwordHashOf_cons (u : UserRow) (us : List UserRow) (c : String) :
    passwordHashOf (u :: us) c =
      if u.username = c then some u.password_hash else passwordHashOf us c := by
  by_cases h : u.username = c <;> simp [passwordHashOf, List.find?_cons, h]

theorem getAuthUser_cons (u : UserRow) (us : List UserRow) (a : String) :
    getAuthUser (u :: us) a =
      if u.username = a then .ok ⟨u.username, u.password_hash⟩ else getAuthUser us a := by
  by_cases h : u.username = a <;> simp [getAuthUser, List.filter_cons, h]

theorem getAuthUser_eq (users : List UserRow) (a : String) :
    getAuthUser users a =
      match passwordHashOf users a with
      | some h => .ok ⟨a, h⟩
      | none => .error .errNoRows := by
  induction users with
  | nil => rfl
  | cons u us ih =>
    rw [getAuthUser_cons, passwordHashOf_cons]
    by_cases h : u.username = a
    · simp [h]
    · simp only [h, if_false]; exact ih

theorem passwordHashOf_eq_none (users : List UserRow) (a : String) :
    passwordHashOf users a = none ↔ balanceOf users a = none := by
  induction users with
  | nil => simp [passwordHashOf, balanceOf]
  | cons u us ih =>
    rw [passwordHashOf_cons, balanceOf_cons]
    by_cases h : u.username = a
    · simp [h]
    · simp only [h, if_false]; exact ih

theorem passwordHashOf_append (us : List UserRow) (r : UserRow) (c : String) :
    passwordHashOf (us ++ [r]) c =
      match passwordHashOf us c with
      | some h => some h
      | none => if r.username = c then some r.password_hash else none := by
  induction us with
  | nil => simp [passwordHashOf_cons, passwordHashOf]
  | cons u us ih =>
    rw [List.cons_append, passwordHashOf_cons, passwordHashOf_cons]
    by_cases h : u.username = c
    · simp [h]
    · simp only [h, if_false]; exact ih

theorem balanceOf_append (us : List UserRow) (r : UserRow) (c : String) :
    balanceOf (us ++ [r]) c =
      match balanceOf us c with
      | some b => some b
      | none => if r.username = c then some r.balance else none := by
  induction us with
  | nil => simp [balanceOf_cons, balanceOf]
  | cons u us ih =>
    rw [List.cons_append, balanceOf_cons, balanceOf_cons]
    by_cases h : u.username = c
    · simp [h]
    · simp only [h, if_false]; exact ih

/-- Every call of `Auth` either leaves the store as it was, or returns `nil` after adding
one row for a username that had none, with the balance read from `MONEY_FOR_START`. -/
theorem auth_cases (env : AuthEnv) (s : Store) (username hash : String) :
    (AuthRepository.Auth env s username hash).2 = s ∨
    (∃ m, passwordHashOf s.users username = none ∧ env.getFault = none ∧
      env.execFault = none ∧ Atoi env.moneyForStart = some m ∧
      AuthRepository.Auth env s username hash
        = (none, { s with users := s.users ++ [⟨username, hash, m⟩] })) := by
  unfold AuthRepository.Auth
  simp only [getAuthUser_eq]
  cases h1 : env.getFault with
  | some e => left; simp only [isErrNoRows]; rfl
  | none =>
    cases hp : passwordHashOf s.users username with
    | some stored =>
      left
      show (if hash ≠ stored then _ else _ : Option GoError × Store).2 = s
      by_cases hh : hash ≠ stored
      · rw [if_pos hh]
      · rw [if_neg hh]
    | none =>
      simp only [isErrNoRows, if_true]
      unfold AuthRepository.createNewUser
      cases hm : Atoi env.moneyForStart with
      | none => left; rfl
      | some m =>
        cases h2 : env.execFault with
        | some e => left; rfl
        | none =>
          right
          refine ⟨m, ?_, ?_, ?_, ?_, ?_⟩ <;> first | rfl | trivial

theorem op_run_usernames (s : Store) (op : Op) :
    (op.run s).2.users.map (·.username) = s.users.map (·.username) := by
  cases op with
  | sendCoin env a b amount =>
    simp only [Op.run]
    rcases sendCoin_cases env s a b amount with ⟨e, he⟩ | ⟨bs, _, _, hrun⟩
    · rw [he]
    · rw [hrun]; simp only [addBalance_usernames, subBalance_usernames]
  | buy env u i =>
    simp only [Op.run]
    rcases buy_cases env s u i with ⟨e, he⟩ | ⟨p, bal, _, _, _, hrun⟩
    · rw [he]
    · rw [hrun]; simp only [subBalance_usernames]

theorem call_run_usernames (s : Store) (c : Call) :
    s.users.map (·.username) <+: (c.run s).2.users.map (·.username) := by
  cases c with
  | shop op => simp only [Call.run, op_run_usernames]; exact List.prefix_refl _
  | auth env username hash =>
    simp only [Call.run]
    rcases auth_cases env s username hash with h | ⟨m, _, _, _, _, hrun⟩
    · rw [h]
    · rw [hrun]; simp only [List.map_append]; exact List.prefix_append _ _

/-- No call deletes an account: the usernames before a sequence of calls are still there
after it, in the same places. -/
theorem runCalls_usernames (calls : List Call) (s : Store) :
    s.users.map (·.username) <+: (runCalls s calls).users.map (·.username) := by
  induction calls generalizing s with
  | nil => exact List.prefix_refl _
  | cons c cs ih => exact List.IsPrefix.trans (call_run_usernames s c) (ih _)

/-- C17: `Auth` creates the account if it is absent and is idempotent.  For a username
without an account (no failing statement, `MONEY_FOR_START` numeric with value `m`) it
returns `nil` and adds the one row `(username, hash, m)`, all other rows unchanged.  For
a username with an account it never changes the store, returning `nil` when the hash is
the stored one and `WrongPasswordError` (status 401) otherwise.  Two calls with the same
arguments leave the store of the first call, and no sequence of calls of any kind
removes a username. -/
theorem auth_create_if_absent (env : AuthEnv) (s : Store) (username hash : String) :
    (∀ m, balanceOf s.users username = none → env.getFault = none → env.execFault = none →
      Atoi env.moneyForStart = some m →
      AuthRepository.Auth env s username hash
        = (none, { s with users := s.users ++ [⟨username, hash, m⟩] }) ∧
      balanceOf (AuthRepository.Auth env s username hash).2.users username = some m ∧
      passwordHashOf (AuthRepository.Auth env s username hash).2.users username = some hash ∧
      ∀ c, c ≠ username →
        balanceOf (AuthRepository.Auth env s username hash).2.users c = balanceOf s.users c ∧
        passwordHashOf (AuthRepository.Auth env s username hash).2.users c
          = passwordHashOf s.users c) ∧
    (∀ stored, passwordHashOf s.users username = some stored →
      (AuthRepository.Auth env s username hash).2 = s ∧
      (env.getFault = none → hash = stored →
        (AuthRepository.Auth env s username hash).1 = none) ∧
      (env.getFault = none → hash ≠ stored →
        ∃ e, (AuthRepository.Auth env s username hash).1 = some e ∧
          GetAPIError e = WrongPasswordError ∧ (GetAPIError e).Status = 401)) ∧
    (AuthRepository.Auth env (AuthRepository.Auth env s username hash).2 username hash).2
      = (AuthRepository.Auth env s username hash).2 ∧
    (∀ calls : List Call,
      s.users.map (·.username) <+: (runCalls s calls).users.map (·.username)) := by
  refine ⟨?_, ?_, ?_, fun calls => runCalls_usernames calls s⟩
  · intro m hb hg he hm
    have hp : passwordHashOf s.users username = none := (passwordHashOf_eq_none _ _).mpr hb
    have hrun : AuthRepository.Auth env s username hash
        = (none, { s with users := s.users ++ [⟨username, hash, m⟩] }) := by
      simp [AuthRepository.Auth, AuthRepository.createNewUser, getAuthUser_eq, hg, he, hm, hp,
        isErrNoRows]
    rw [hrun]
    refine ⟨rfl, ?_, ?_, ?_⟩
    · simp [balanceOf_append, hb]
    · simp [passwordHashOf_append, hp]
    · intro c hc
      have hc' : ¬ username = c := fun e => hc e.symm
      constructor
      · rw [balanceOf_append]
        cases balanceOf s.users c <;> simp [hc']
      · rw [passwordHashOf_append]
        cases passwordHashOf s.users c <;> simp [hc']
  · intro stored hp
    refine ⟨?_, ?_, ?_⟩
    · rcases auth_cases env s username hash with h | ⟨m, hp', _⟩
      · exact h
      · rw [hp] at hp'; cases hp'
    · intro hg hh
      simp [AuthRepository.Auth, getAuthUser_eq, hg, hp, hh]
    · intro hg hh
      refine ⟨NewAPIErrorWithMsg WrongPasswordError
        "repository.auth.Auth: (failed sign in user): wrong password", ?_, rfl, rfl⟩
      simp [AuthRepository.Auth, getAuthUser_eq, hg, hp, hh]
  · rcases auth_cases env s username hash with h | ⟨m, hp, hg, he, hm, hrun⟩
    · rw [h, h]
    · rw [hrun]
      have hp2 : passwordHashOf (s.users ++ [⟨username, hash, m⟩]) username = some hash := by
        simp [passwordHashOf_append, hp]
      simp [AuthRepository.Auth, getAuthUser_eq, hg, hp2]

/-- In `storeA` the first `Auth` of `B` creates the account with 1000 coins, and a second
one changes nothing. -/
theorem auth_create_if_absent_witness :
    AuthRepository.Auth authEnvOk storeA "B" "hb"
      = (none, { storeA with users := storeA.users ++ [⟨"B", "hb", 1000⟩] }) ∧
    (AuthRepository.Auth authEnvOk storeA "A" "other").2 = storeA :=
  ⟨((auth_create_if_absent authEnvOk storeA "B" "hb").1 1000 (by decide) rfl rfl
      (by decide)).1,
   ((auth_create_if_absent authEnvOk storeA "A" "other").2.1 "h" (by decide)).1⟩

/-! ## The claims on `GetInfo` and on `Handler.Buy` -/

/-- C21: when the four reads succeed `GetInfo` returns `nil` and the four values read;
when a read fails it returns the zero `InfoOutput` and the error of the first failing
read, in the order coins, inventory, received, sent, wrapped with the operation name
and classified like it, whatever the later reads are, so they are not performed. -/
theorem getInfo_spec (getCoinsAmount : String → Except GoError Int)
    (getInventory : String → Except GoError (List Item))
    (getCoinReceivedHistory : String → Except GoError (List Receive))
    (getCoinSentHistory : String → Except GoError (List Send)) (u : String) :
    (∀ coins inventory received sent,
      getCoinsAmount u = .ok coins → getInventory u = .ok inventory →
      getCoinReceivedHistory u = .ok received → getCoinSentHistory u = .ok sent →
      ShopService.GetInfoWith getCoinsAmount getInventory getCoinReceivedHistory
        getCoinSentHistory u = (⟨coins, inventory, ⟨received, sent⟩⟩, none)) ∧
    (∀ e, getCoinsAmount u = .error e →
      ∀ getInventory' getCoinReceivedHistory' getCoinSentHistory',
        ShopService.GetInfoWith getCoinsAmount getInventory' getCoinReceivedHistory'
          getCoinSentHistory' u = (InfoOutput.zero, some (.wrapf e "service.shop.GetInfo"))) ∧
    (∀ coins e, getCoinsAmount u = .ok coins → getInventory u = .error e →
      ∀ getCoinReceivedHistory' getCoinSentHistory',
        ShopService.GetInfoWith getCoinsAmount getInventory getCoinReceivedHistory'
          getCoinSentHistory' u = (InfoOutput.zero, some (.wrapf e "service.shop.GetInfo"))) ∧
    (∀ coins inventory e, getCoinsAmount u = .ok coins → getInventory u = .ok inventory →
      getCoinReceivedHistory u = .error e →
      ∀ getCoinSentHistory',
        ShopService.GetInfoWith getCoinsAmount getInventory getCoinReceivedHistory
          getCoinSentHistory' u = (InfoOutput.zero, some (.wrapf e "service.shop.GetInfo"))) ∧
    (∀ coins inventory received e, getCoinsAmount u = .ok coins →
      getInventory u = .ok inventory → getCoinReceivedHistory u = .ok received →
      getCoinSentHistory u = .error e →
      ShopService.GetInfoWith getCoinsAmount getInventory getCoinReceivedHistory
        getCoinSentHistory u = (InfoOutput.zero, some (.wrapf e "service.shop.GetInfo"))) ∧
    (∀ e : GoError, GetAPIError (.wrapf e "service.shop.GetInfo") = GetAPIError e) := by
  refine ⟨?_, ?_, ?_, ?_, ?_, fun _ => rfl⟩
  · intro coins inventory received sent h1 h2 h3 h4
    simp only [ShopService.GetInfoWith, h1, h2, h3, h4]
  · intro e h1 g2 g3 g4
    simp only [ShopService.GetInfoWith, h1]
  · intro coins e h1 h2 g3 g4
    simp only [ShopService.GetInfoWith, h1, h2]
  · intro coins inventory e h1 h2 h3 g4
    simp only [ShopService.GetInfoWith, h1, h2, h3]
  · intro coins inventory received e h1 h2 h3 h4
    simp only [ShopService.GetInfoWith, h1, h2, h3, h4]

/-- In `storeAB'`, where `A` has sent 100 to `B`, `GetInfo` of `A` gives 900 coins, no
inventory, nothing received and the one transfer sent; and when the read of the
inventory fails it gives the zero value and an internal error. -/
theorem getInfo_spec_witness :
    ShopService.GetInfo ⟨none, none, none, none⟩ storeAB' "A"
      = (⟨900, [], ⟨[], [⟨"B", 100⟩]⟩⟩, none) ∧
    ShopService.GetInfo ⟨none, some "connection lost", none, none⟩ storeAB' "A"
      = (InfoOutput.zero, some (.wrapf (NewAPIError InternalError (.wrapf (.driver "connection lost")
          "repository.info.GetInventory: (failed get user's inventory)"))
          "service.shop.GetInfo")) :=
  ⟨(getInfo_spec (InfoRepository.GetCoinsAmount none storeAB')
      (InfoRepository.GetInventory none storeAB')
      (HistoryRepository.GetCoinReceivedHistory none storeAB')
      (HistoryRepository.GetCoinSentHistory none storeAB') "A").1 900 [] [] [⟨"B", 100⟩]
      rfl rfl rfl rfl,
   (getInfo_spec (InfoRepository.GetCoinsAmount none storeAB')
      (InfoRepository.GetInventory (some "connection lost") storeAB')
      (HistoryRepository.GetCoinReceivedHistory none storeAB')
      (HistoryRepository.GetCoinSentHistory none storeAB') "A").2.2.1 900 _
      rfl rfl _ _⟩

/-- C26, as stated, fails: for the user `A` in `storeAB` the handler gives the empty item
name and the unknown item `something` the same response, status 400 and message
"no such item exists". -/
theorem handler_buy_counterexample :
    priceOf storeAB.items "something" = none ∧
    (Handler.Buy (Env.ok 0) storeAB (some (.str "A")) "").1
      = (Handler.Buy (Env.ok 0) storeAB (some (.str "A")) "something").1 ∧
    (Handler.Buy (Env.ok 0) storeAB (some (.str "A")) "").1
      = ⟨400, some "no such item exists"⟩ := by
  decide

/-- C26, amended: for the empty item name `Handler.Buy` answers 400 "no such item exists"
and leaves the store unchanged whatever its service is, so the service is not called;
and it gives the same response to a non-empty item name that is not in the catalog
(once the transaction is open and the catalog read). -/
theorem handler_buy_empty_item (s : Store) (ctx : Option CtxValue) (username : String)
    (hctx : getUsername ctx = .ok username) :
    (∀ svc : BuyService,
      Handler.BuyWith svc s ctx "" = (⟨400, some "no such item exists"⟩, s)) ∧
    (∀ (env : Env) (item : String), item ≠ "" → priceOf s.items item = none →
      env.fault .begin = none → env.fault .getItemPrice = none →
      Handler.Buy env s ctx item = (⟨400, some "no such item exists"⟩, s)) := by
  constructor
  · intro svc
    simp only [Handler.BuyWith, hctx, if_true]
    rfl
  · intro env item hne hp hbegin hitem
    have hrun : ShoppingRepository.Buy env s username item =
        (some (NewAPIError InvalidItemError
          (.wrapf .errNoRows "repository.shopping.Buy: (failed find item)")), s) := by
      simp [ShoppingRepository.Buy, hbegin, hitem, Beginx, Tx.Rollback, getItemPrice_eq, hp,
        isErrNoRows]
    simp only [Handler.Buy, Handler.BuyWith, hctx, hne, if_false, ShopService.Buy, hrun]
    rfl

/-- For the user `A` the empty item name is answered with 400 "no such item exists" over
a service that would empty the store. -/
theorem handler_buy_empty_item_witness :
    Handler.BuyWith (fun _ _ _ => (none, ⟨[], [], [], []⟩)) storeAB (some (.str "A")) ""
      = (⟨400, some "no such item exists"⟩, storeAB) :=
  (handler_buy_empty_item storeAB (some (.str "A")) "A" rfl).1 _

/-! ## The claims on what `SendCoin` does outside its contract -/

/-- C27: when the sender has an account with a balance of at least `amount > 0`, the
receiver has none and no statement fails, `SendCoin` returns `nil`: the rows of the
sender are debited by `amount` and no other row changes, so no balance goes up and no
account is created; one record `(sender, receiver, amount)` is appended; and, usernames
being unique, the sum of all balances goes down by `amount`. -/
theorem sendCoin_unknown_receiver (env : Env) (s : Store) (sender receiver : String)
    (amount bs : Int) (henv : ∀ st, env.fault st = none)
    (hs : balanceOf s.users sender = some bs) (hr : balanceOf s.users receiver = none)
    (hpos : 0 < amount) (hle : amount ≤ bs) :
    (ShoppingRepository.SendCoin env s sender receiver amount).1 = none ∧
    (ShoppingRepository.SendCoin env s sender receiver amount).2.users
      = s.users.map (fun u =>
          if u.username = sender then { u with balance := u.balance - amount } else u) ∧
    (∀ u ∈ (ShoppingRepository.SendCoin env s sender receiver amount).2.users,
      ∃ v ∈ s.users, u.username = v.username ∧ u.balance ≤ v.balance) ∧
    (ShoppingRepository.SendCoin env s sender receiver amount).2.users.map (·.username)
      = s.users.map (·.username) ∧
    balanceOf (ShoppingRepository.SendCoin env s sender receiver amount).2.users sender
      = some (bs - amount) ∧
    balanceOf (ShoppingRepository.SendCoin env s sender receiver amount).2.users receiver
      = none ∧
    (∀ c, c ≠ sender →
      balanceOf (ShoppingRepository.SendCoin env s sender receiver amount).2.users c
        = balanceOf s.users c) ∧
    (ShoppingRepository.SendCoin env s sender receiver amount).2.transactions
      = s.transactions ++ [⟨sender, receiver, amount, env.now⟩] ∧
    (UsersUnique s.users →
      totalBalance (ShoppingRepository.SendCoin env s sender receiver amount).2.users
        = totalBalance s.users - amount) := by
  have habs : receiver ∉ (subBalance s.users amount sender).map (·.username) := by
    rw [subBalance_usernames]
    exact (balanceOf_eq_none _ _).mp hr
  have hrun : ShoppingRepository.SendCoin env s sender receiver amount =
      (none, { s with
        users := subBalance s.users amount sender,
        transactions := insertTransaction s.transactions sender receiver amount env.now }) := by
    simp [ShoppingRepository.SendCoin, henv, Beginx, Tx.Commit, getLockedUser_eq, hs,
      not_lt.mpr hle, addBalance_of_absent _ _ _ habs]
  have hne : receiver ≠ sender := by
    intro e; rw [e, hs] at hr; cases hr
  rw [hrun]
  refine ⟨rfl, rfl, ?_, subBalance_usernames _ _ _, ?_, ?_, ?_, rfl, ?_⟩
  · intro u hu
    simp only [subBalance, List.mem_map] at hu
    obtain ⟨v, hv, rfl⟩ := hu
    refine ⟨v, hv, ?_⟩
    by_cases h : v.username = sender
    · simp only [h, if_true]; exact ⟨trivial, by omega⟩
    · simp only [h, if_false]; exact ⟨trivial, le_refl _⟩
  · simp [balanceOf_subBalance, hs]
  · simp [balanceOf_subBalance, hne, hr]
  · intro c hc
    simp [balanceOf_subBalance, hc]
  · intro hu
    simp only []
    rw [totalBalance_subBalance _ _ _ hu]
    simp [hs]

/-- In `storeAB` the account `A` sends 100 to `ghost`, who has no account: `nil`, `A` is
left with 900, `B` keeps 1000, and the total falls from 2000 to 1900. -/
theorem sendCoin_unknown_receiver_witness :
    (ShoppingRepository.SendCoin (Env.ok 0) storeAB "A" "ghost" 100).1 = none ∧
    (ShoppingRepository.SendCoin (Env.ok 0) storeAB "A" "ghost" 100).2.users
      = [⟨"A", "h", 900⟩, ⟨"B", "h", 1000⟩] ∧
    totalBalance (ShoppingRepository.SendCoin (Env.ok 0) storeAB "A" "ghost" 100).2.users
      = totalBalance storeAB.users - 100 :=
  have h := sendCoin_unknown_receiver (Env.ok 0) storeAB "A" "ghost" 100 1000
    (fun _ => rfl) (by decide) (by decide) (by decide) (by decide)
  ⟨h.1, h.2.1, h.2.2.2.2.2.2.2.2 (by simp [UsersUnique, storeAB])⟩

/-- C28: for two distinct existing accounts, a sender whose balance is not negative and an
amount below zero (no statement failing), the funds check of `SendCoin` does not fire:
it returns `nil`, the sender's balance goes up by `|amount|` and the receiver's goes
down by `|amount|` whatever it was, so it ends negative whenever it was below
`|amount|`. -/
theorem sendCoin_negative_amount (env : Env) (s : Store) (sender receiver : String)
    (amount bs br : Int) (henv : ∀ st, env.fault st = none) (hne : sender ≠ receiver)
    (hs : balanceOf s.users sender = some bs) (hr : balanceOf s.users receiver = some br)
    (hneg : amount < 0) (hbs : 0 ≤ bs) :
    ¬ bs < amount ∧
    (ShoppingRepository.SendCoin env s sender receiver amount).1 = none ∧
    balanceOf (ShoppingRepository.SendCoin env s sender receiver amount).2.users sender
      = some (bs + |amount|) ∧
    balanceOf (ShoppingRepository.SendCoin env s sender receiver amount).2.users receiver
      = some (br - |amount|) ∧
    (br < |amount| →
      ∃ b, balanceOf (ShoppingRepository.SendCoin env s sender receiver amount).2.users
          receiver = some b ∧ b < 0) := by
  have hlt : ¬ bs < amount := by omega
  have habs : |amount| = -amount := abs_of_neg hneg
  have hrun : ShoppingRepository.SendCoin env s sender receiver amount =
      (none, { s with
        users := addBalance (subBalance s.users amount sender) amount receiver,
        transactions := insertTransaction s.transactions sender receiver amount env.now }) := by
    simp [ShoppingRepository.SendCoin, henv, Beginx, Tx.Commit, getLockedUser_eq, hs, hlt]
  rw [hrun, habs]
  have h1 : balanceOf (addBalance (subBalance s.users amount sender) amount receiver) sender
      = some (bs + -amount) := by
    simp [balanceOf_addBalance, balanceOf_subBalance, hne, hs]
    ring
  have h2 : balanceOf (addBalance (subBalance s.users amount sender) amount receiver) receiver
      = some (br - -amount) := by
    simp [balanceOf_addBalance, balanceOf_subBalance, hne.symm, hr]
  refine ⟨hlt, rfl, h1, h2, ?_⟩
  intro hbr
  exact ⟨_, h2, by omega⟩

/-- In `storeAB` the account `A` sends -5000 to `B`: `nil`, `A` ends with 6000 and `B`
with -4000. -/
theorem sendCoin_negative_amount_witness :
    (ShoppingRepository.SendCoin (Env.ok 0) storeAB "A" "B" (-5000)).1 = none ∧
    balanceOf (ShoppingRepository.SendCoin (Env.ok 0) storeAB "A" "B" (-5000)).2.users "A"
      = some (1000 + |(-5000 : Int)|) ∧
    balanceOf (ShoppingRepository.SendCoin (Env.ok 0) storeAB "A" "B" (-5000)).2.users "B"
      = some (1000 - |(-5000 : Int)|) :=
  have h := sendCoin_negative_amount (Env.ok 0) storeAB "A" "B" (-5000) 1000 1000
    (fun _ => rfl) (by decide) (by decide) (by decide) (by decide) (by decide)
  ⟨h.2.1, h.2.2.1, h.2.2.2.1⟩

/-! ## Tokens -/

theorem readNat_encNat (n : Nat) (rest : List Char) :
    readNat (encNat n ++ rest) = (n, rest) := by
  induction n with
  | zero => simp [encNat, readNat]
  | succ n ih =>
    have h : encNat (n + 1) ++ rest = 'a' :: (encNat n ++ rest) := by
      simp [encNat, List.replicate_succ]
    rw [h, readNat, if_pos rfl, ih]

theorem readInt_encInt (x : Int) (rest : List Char) :
    readInt (encInt x ++ rest) = (x, rest) := by
  unfold encInt
  rw [List.cons_append, readInt, readNat_encNat]
  by_cases hx : x < 0
  · simp only [hx, if_true]
    congr 1
    omega
  · have h : ¬ ('+' = '-') := by decide
    simp only [hx, if_false, h]
    congr 1
    omega

theorem testDecode_testEncode (key : String) (c : StandardClaims) :
    testDecode (testEncode key c) = (key, c) := by
  unfold testDecode testEncode
  simp only [readInt_encInt, readNat_encNat, List.take_left', List.drop_left']

theorem testJWT_lawful : testJWT.Lawful where
  sign_ok := fun key c => ⟨_, rfl⟩
  round_trip := by
    intro key c tok keyFunc now hsign hkey hvalid
    have htok : tok = testEncode key c := by
      simp only [testJWT] at hsign
      cases hsign; rfl
    subst htok
    simp only [testJWT, hkey, testDecode_testEncode, hvalid, not_true_eq_false, if_false,
      ne_eq]

/-- What the test library answers on a token of its own. -/
theorem testJWT_parse (key : String) (c : StandardClaims)
    (keyFunc : SigningMethod → Except GoError String) (now : Int) :
    testJWT.ParseWithClaims (testEncode key c) keyFunc now =
      match keyFunc .hmac with
      | .error e => .error e
      | .ok key' =>
        if key ≠ key' then .error (.driver "signature is invalid")
        else if ¬ c.validAt now then .error (.driver "token is expired")
        else .ok (.standard c) := by
  cases h : keyFunc .hmac with
  | error e => simp [testJWT, h]
  | ok k =>
    by_cases hk : key = k <;> by_cases hv : c.validAt now <;>
      simp [testJWT, testDecode_testEncode, h, hk, hv]

theorem wrap64_of_fits (x : Int) (h0 : -(2 : Int) ^ 63 ≤ x) (h1 : x < 2 ^ 63) :
    wrap64 x = x := by
  unfold wrap64
  norm_num at h0 h1 ⊢
  omega

/-- C24, as stated, fails: with `TOKEN_TTL_HOURS` = 3000000, numeric and positive, and a
non-empty key, the 64-bit product of the hours and `time.Hour` overflows, the token is
issued with an expiry in the past, and `ParseToken` rejects it at the very second of
its issue (over the test library, which keeps the laws of the real one). -/
theorem token_round_trip_counterexample :
    Atoi "3000000" = some 3000000 ∧
    testJWT.Lawful ∧
    AuthService.GenerateToken testJWT "3000000" "key" 1700000000000000000
        1700000000000000000 "user"
      = (testEncode "key"
          (tokenClaims 3000000 1700000000000000000 1700000000000000000 "user"), none) ∧
    (tokenClaims 3000000 1700000000000000000 1700000000000000000 "user").ExpiresAt
      = -5946744074 ∧
    AuthService.ParseToken testJWT "key" 1700000000
        (testEncode "key" (tokenClaims 3000000 1700000000000000000 1700000000000000000 "user"))
      = ("", some (NewAPIError BadTokenError
          (.wrapf (.driver "token is expired") "service.auth.ParseToken: (failed parse token)"))) := by
  have hA : Atoi "3000000" = some 3000000 := by decide
  have hexp : (tokenClaims 3000000 1700000000000000000 1700000000000000000 "user").ExpiresAt
      = -5946744074 := by decide
  have hinv : ¬ (tokenClaims 3000000 1700000000000000000 1700000000000000000
      "user").validAt 1700000000 := by decide
  have hk : ¬ ("key" = "") := by decide
  refine ⟨hA, testJWT_lawful, ?_, hexp, ?_⟩
  · simp only [AuthService.GenerateToken, hA, hk, if_false, testJWT]
  · rw [AuthService.ParseToken, testJWT_parse]
    simp only [parseTokenKeyFunc, hk, if_false, hinv, not_false_eq_true, if_true, ne_eq,
      not_true_eq_false]
    rfl

/-- C24, amended: over a token library that keeps its laws, with a non-empty
`SIGNING_KEY` and a numeric positive `TOKEN_TTL_HOURS` whose hours fit a
`time.Duration` (the product with `time.Hour` stays below `2 ^ 63`), `GenerateToken`
succeeds and `ParseToken` of its token, run between the issue and the expiry, returns
the username and `nil`; and whatever the library is, `GenerateToken` fails with
`InternalError` (status 500) when `TOKEN_TTL_HOURS` is not numeric or `SIGNING_KEY` is
empty. -/
theorem token_round_trip (jwt : JWTLib) (ttlVar keyVar : String) (now₁ now₂ : Int)
    (username : String) :
    (jwt.Lawful → ∀ ttl now : Int, Atoi ttlVar = some ttl → 0 < ttl →
      ttl * timeHour < 2 ^ 63 → keyVar ≠ "" →
      now₂ / 1000000000 ≤ now → now ≤ (now₁ + ttl * timeHour) / 1000000000 →
      ∃ tok, AuthService.GenerateToken jwt ttlVar keyVar now₁ now₂ username = (tok, none) ∧
        AuthService.ParseToken jwt keyVar now tok = (username, none)) ∧
    (Atoi ttlVar = none ∨ keyVar = "" →
      ∃ e, AuthService.GenerateToken jwt ttlVar keyVar now₁ now₂ username = ("", some e) ∧
        GetAPIError e = InternalError ∧ (GetAPIError e).Status = 500) := by
  constructor
  · intro hjwt ttl now httl hpos hfit hkey hiat hexp
    obtain ⟨tok, htok⟩ := hjwt.sign_ok keyVar (tokenClaims ttl now₁ now₂ username)
    have hth : (0 : Int) < timeHour := by decide
    have hprod : 0 < ttl * timeHour := Int.mul_pos hpos hth
    have hw : wrap64 (ttl * timeHour) = ttl * timeHour :=
      wrap64_of_fits _ (by have : -(2 : Int) ^ 63 ≤ 0 := by norm_num
                           omega) hfit
    have hvalid : (tokenClaims ttl now₁ now₂ username).validAt now := by
      simp only [StandardClaims.validAt, tokenClaims, hw]
      exact ⟨Or.inr hexp, Or.inr hiat⟩
    have hparse := hjwt.round_trip keyVar _ tok (parseTokenKeyFunc keyVar) now htok
      (by simp only [parseTokenKeyFunc, hkey, if_false]) hvalid
    refine ⟨tok, ?_, ?_⟩
    · simp only [AuthService.GenerateToken, httl, hkey, if_false, htok]
    · simp only [AuthService.ParseToken, hparse, tokenClaims]
  · intro h
    cases hA : Atoi ttlVar with
    | none =>
      refine ⟨NewAPIError InternalError (.wrapf (.driver "strconv.Atoi: parsing error")
        "service.auth.GenerateToken: (env TOKEN_TTL_HOURS must be numeric)"), ?_, rfl, rfl⟩
      simp only [AuthService.GenerateToken, hA]
      rfl
    | some ttl =>
      rcases h with h | h
      · rw [hA] at h; cases h
      · refine ⟨NewAPIErrorWithMsg InternalError
          "service.auth.GenerateToken: (failed get sign key): sign key is empty", ?_, rfl, rfl⟩
        simp only [AuthService.GenerateToken, hA, h, if_true]
        rfl

/-- The scenario of the service test: `TOKEN_TTL_HOURS` = 4 and a non-empty key; the
token of `username` parses back to `username` one second after its issue. -/
theorem token_round_trip_witness :
    ∃ tok, AuthService.GenerateToken testJWT "4" "jgrh4r5ehg" 1700000000000000000
        1700000000000000000 "username" = (tok, none) ∧
      AuthService.ParseToken testJWT "jgrh4r5ehg" 1700000001 tok = ("username", none) :=
  (token_round_trip testJWT "4" "jgrh4r5ehg" 1700000000000000000 1700000000000000000
    "username").1 testJWT_lawful 4 1700000001 (by decide) (by decide) (by decide) (by decide)
    (by decide) (by decide)

/-- C29: whenever `ParseToken` returns an error, for every library, token, key and time,
`GetAPIError` gives `BadTokenError`, status 401 and message "empty or invalid token",
and the username returned is empty; this includes the error the key function raises
as `InternalError` for an empty `SIGNING_KEY`, which ends up wrapped inside. -/
theorem parseToken_errors (jwt : JWTLib) (keyVar : String) (now : Int) (token : String) :
    (∀ e, (AuthService.ParseToken jwt keyVar now token).2 = some e →
      GetAPIError e = BadTokenError ∧ (GetAPIError e).Status = 401 ∧
      (GetAPIError e).Message = "empty or invalid token" ∧
      (AuthService.ParseToken jwt keyVar now token).1 = "") ∧
    (∀ inner, jwt.ParseWithClaims token (parseTokenKeyFunc keyVar) now = .error inner →
      AuthService.ParseToken jwt keyVar now token
        = ("", some (NewAPIError BadTokenError
            (.wrapf inner "service.auth.ParseToken: (failed parse token)")))) ∧
    (∃ inner, parseTokenKeyFunc "" .hmac = .error inner ∧ GetAPIError inner = InternalError ∧
      GetAPIError (NewAPIError BadTokenError
        (.wrapf inner "service.auth.ParseToken: (failed parse token)")) = BadTokenError) := by
  refine ⟨?_, ?_, ⟨_, rfl, rfl, rfl⟩⟩
  · intro e he
    unfold AuthService.ParseToken at he ⊢
    cases h : jwt.ParseWithClaims token (parseTokenKeyFunc keyVar) now with
    | error inner =>
      rw [h] at he
      cases he
      exact ⟨rfl, rfl, rfl, rfl⟩
    | ok c =>
      rw [h] at he
      cases c with
      | other => cases he; exact ⟨rfl, rfl, rfl, rfl⟩
      | standard claims => cases he
  · intro inner h
    simp only [AuthService.ParseToken, h]
    rfl

/-- With an empty `SIGNING_KEY` the test library passes on the internal error of the key
function, and `ParseToken` still reports a bad token. -/
theorem parseToken_errors_witness :
    (AuthService.ParseToken testJWT "" 0 "some token").1 = "" ∧
    ∃ e, (AuthService.ParseToken testJWT "" 0 "some token").2 = some e ∧
      GetAPIError e = BadTokenError :=
  ⟨((parseToken_errors testJWT "" 0 "some token").1 _ rfl).2.2.2,
   _, rfl, ((parseToken_errors testJWT "" 0 "some token").1 _ rfl).1⟩

/-! ## The header and the input of `/api/auth` -/

theorem splitChars_ne_nil (sep : Char) (l : List Char) : splitChars sep l ≠ [] := by
  cases l with
  | nil => simp [splitChars]
  | cons c cs =>
    unfold splitChars
    by_cases h : c = sep
    · simp [h]
    · simp only [h, if_false]
      cases splitChars sep cs <;> simp

theorem splitChars_cons (sep c : Char) (cs : List Char) :
    splitChars sep (c :: cs) =
      if c = sep then [] :: splitChars sep cs
      else
        match splitChars sep cs with
        | [] => [[c]]
        | p :: ps => (c :: p) :: ps := rfl

/-- A list without the separator is its own single part. -/
theorem splitChars_of_not_mem (sep : Char) (l : List Char) (h : sep ∉ l) :
    splitChars sep l = [l] := by
  induction l with
  | nil => rfl
  | cons c cs ih =>
    have hc : ¬ c = sep := fun e => h (e ▸ List.mem_cons_self _ _)
    have hcs : sep ∉ cs := fun e => h (List.mem_cons_of_mem _ e)
    rw [splitChars_cons, if_neg hc, ih hcs]

/-- The first part ends at the first separator. -/
theorem splitChars_append (sep : Char) (a b : List Char) (h : sep ∉ a) :
    splitChars sep (a ++ sep :: b) = a :: splitChars sep b := by
  induction a with
  | nil => simp [splitChars_cons]
  | cons c cs ih =>
    have hc : ¬ c = sep := fun e => h (e ▸ List.mem_cons_self _ _)
    have hcs : sep ∉ cs := fun e => h (List.mem_cons_of_mem _ e)
    rw [List.cons_append, splitChars_cons, if_neg hc, ih hcs]

theorem eq_of_splitChars_single (sep : Char) (l b : List Char)
    (h : splitChars sep l = [b]) : l = b := by
  induction l generalizing b with
  | nil => simpa [splitChars] using h
  | cons c cs ih =>
    rw [splitChars_cons] at h
    by_cases hc : c = sep
    · rw [if_pos hc] at h
      have : splitChars sep cs = [] := by
        simp only [List.cons.injEq] at h
        exact h.2
      exact absurd this (splitChars_ne_nil sep cs)
    · rw [if_neg hc] at h
      cases hs : splitChars sep cs with
      | nil => exact absurd hs (splitChars_ne_nil sep cs)
      | cons p ps =>
        rw [hs] at h
        simp only [List.cons.injEq] at h
        obtain ⟨rfl, rfl⟩ := h
        rw [ih p hs]

/-- Two parts stand left and right of one separator. -/
theorem eq_of_splitChars_pair (sep : Char) (l a b : List Char)
    (h : splitChars sep l = [a, b]) : l = a ++ sep :: b := by
  induction l generalizing a with
  | nil => simp [splitChars] at h
  | cons c cs ih =>
    rw [splitChars_cons] at h
    by_cases hc : c = sep
    · rw [if_pos hc] at h
      simp only [List.cons.injEq] at h
      obtain ⟨rfl, h2⟩ := h
      rw [eq_of_splitChars_single sep cs b h2, hc]
      rfl
    · rw [if_neg hc] at h
      cases hs : splitChars sep cs with
      | nil => exact absurd hs (splitChars_ne_nil sep cs)
      | cons p ps =>
        rw [hs] at h
        simp only [List.cons.injEq] at h
        obtain ⟨rfl, rfl⟩ := h
        rw [ih p hs]
        rfl

theorem utf8Bytes_go_eq_nil (cs : List Char) : utf8Bytes.go cs = [] ↔ cs = [] := by
  cases cs with
  | nil => simp [utf8Bytes.go]
  | cons c cs =>
    simp only [utf8Bytes.go, List.append_eq_nil, List.map_eq_nil_iff, reduceCtorEq,
      iff_false, not_and]
    intro h
    have h1 := String.length_utf8EncodeChar c
    rw [h, List.length_nil] at h1
    have h2 := Char.utf8Size_pos c
    omega

/-- Only the empty string has length 0. -/
theorem len_eq_zero (s : String) : len s = 0 ↔ s = "" := by
  unfold len utf8Bytes
  rw [List.length_eq_zero, utf8Bytes_go_eq_nil]
  constructor
  · intro h; exact String.ext h
  · intro h; rw [h]; rfl

theorem stringsSplit_pair (header p0 p1 : String)
    (h : stringsSplit header ' ' = [p0, p1]) : header = p0 ++ " " ++ p1 := by
  unfold stringsSplit at h
  cases hs : splitChars ' ' header.toList with
  | nil => rw [hs] at h; simp at h
  | cons a rest =>
    cases rest with
    | nil => rw [hs] at h; simp at h
    | cons b rest2 =>
      cases rest2 with
      | cons c r => rw [hs] at h; simp at h
      | nil =>
        rw [hs] at h
        simp only [List.map_cons, List.map_nil, List.cons.injEq, and_true] at h
        obtain ⟨rfl, rfl⟩ := h
        have := eq_of_splitChars_pair ' ' header.toList a b hs
        apply String.ext
        simp only [String.data_append]
        rw [show header.data = a ++ ' ' :: b from this]
        simp

/-- The four outcomes of `getTokenFromHeader`, by the shape of the header. -/
theorem getTokenFromHeader_cases (header : String) :
    (header = "" ∧ getTokenFromHeader header
      = ("", some (NewAPIErrorWithMsg BadAuthHeaderError "empty Authorization header"))) ∨
    (header ≠ "" ∧ ∃ p1, stringsSplit header ' ' = ["Bearer", p1] ∧ p1 ≠ "" ∧
      getTokenFromHeader header = (p1, none)) ∨
    (header = "Bearer " ∧ getTokenFromHeader header
      = ("", some (NewAPIErrorWithMsg BadAuthHeaderError "empty token"))) ∨
    (header ≠ "" ∧ (∀ p1, stringsSplit header ' ' ≠ ["Bearer", p1]) ∧
      getTokenFromHeader header
        = ("", some (NewAPIErrorWithMsg BadAuthHeaderError "no token"))) := by
  by_cases h0 : header = ""
  · left; subst h0; exact ⟨rfl, rfl⟩
  · right
    unfold getTokenFromHeader
    rw [if_neg h0]
    cases hs : stringsSplit header ' ' with
    | nil => right; right; exact ⟨h0, fun p1 h => by simp at h, rfl⟩
    | cons p0 rest =>
      cases rest with
      | nil => right; right; exact ⟨h0, fun p1 h => by simp at h, rfl⟩
      | cons p1 rest2 =>
        cases rest2 with
        | cons p2 r => right; right; exact ⟨h0, fun p1 h => by simp at h, rfl⟩
        | nil =>
          by_cases hb : p0 = "Bearer"
          · subst hb
            by_cases hl : len p1 = 0
            · right; left
              have hp1 : p1 = "" := (len_eq_zero p1).mp hl
              subst hp1
              refine ⟨?_, ?_⟩
              · rw [stringsSplit_pair header "Bearer" "" hs]; rfl
              · simp only [ne_eq, not_true_eq_false, if_false, hl, if_true]
            · left
              have hp1 : p1 ≠ "" := fun e => hl ((len_eq_zero p1).mpr e)
              refine ⟨h0, p1, rfl, hp1, ?_⟩
              simp only [ne_eq, not_true_eq_false, if_false, hl]
          · right; right
            refine ⟨h0, ?_, ?_⟩
            · intro q h
              simp only [List.cons.injEq, and_true] at h
              exact hb h.1
            · simp only [ne_eq, hb, not_false_eq_true, if_true]

theorem stringsSplit_bearer (t : String) (ht : ' ' ∉ t.toList) :
    stringsSplit ("Bearer " ++ t) ' ' = ["Bearer", t] := by
  unfold stringsSplit
  have h1 : ("Bearer " ++ t).toList = "Bearer".toList ++ ' ' :: t.toList := by
    simp only [String.toList, String.data_append]
    rfl
  rw [h1, splitChars_append ' ' _ _ (by decide), splitChars_of_not_mem ' ' _ ht]
  rfl

/-- C22: `getTokenFromHeader` returns a token and `nil` exactly when the header, split on
the space, has the two parts "Bearer" and a non-empty second part, which is the token;
so "Bearer " followed by a non-empty token without a space gives that token.
Otherwise it returns the empty token and a `BadAuthHeaderError` (status 401) with the
detail "empty Authorization header" for the empty header, "empty token" for exactly
"Bearer ", and "no token" for every other header. -/
theorem getTokenFromHeader_spec (header : String) :
    (∀ tok, getTokenFromHeader header = (tok, none) ↔
      ∃ p1, stringsSplit header ' ' = ["Bearer", p1] ∧ p1 ≠ "" ∧ tok = p1) ∧
    (∀ t : String, t ≠ "" → ' ' ∉ t.toList →
      getTokenFromHeader ("Bearer " ++ t) = (t, none)) ∧
    (header = "" → getTokenFromHeader header
      = ("", some (NewAPIErrorWithMsg BadAuthHeaderError "empty Authorization header"))) ∧
    (getTokenFromHeader header
        = ("", some (NewAPIErrorWithMsg BadAuthHeaderError "empty token")) ↔
      header = "Bearer ") ∧
    (header ≠ "" → header ≠ "Bearer " →
      (¬ ∃ p1, stringsSplit header ' ' = ["Bearer", p1] ∧ p1 ≠ "") →
      getTokenFromHeader header
        = ("", some (NewAPIErrorWithMsg BadAuthHeaderError "no token"))) ∧
    (∀ e, (getTokenFromHeader header).2 = some e →
      (getTokenFromHeader header).1 = "" ∧ GetAPIError e = BadAuthHeaderError ∧
      (GetAPIError e).Status = 401) := by
  have hsplit0 : stringsSplit "" ' ' = [""] := by decide
  have hsplitB : stringsSplit "Bearer " ' ' = ["Bearer", ""] := by decide
  refine ⟨?_, ?_, ?_, ?_, ?_, ?_⟩
  · intro tok
    rcases getTokenFromHeader_cases header with ⟨h0, hr⟩ | ⟨h0, p1, hs, hp1, hr⟩ |
      ⟨hB, hr⟩ | ⟨h0, hs, hr⟩
    · rw [hr, h0, hsplit0]
      simp
    · rw [hr, hs]
      constructor
      · intro h
        have : p1 = tok := by simpa using h
        exact ⟨p1, rfl, hp1, this.symm⟩
      · rintro ⟨q, hq, _, rfl⟩
        simp only [List.cons.injEq, true_and, and_true] at hq
        rw [hq]
    · rw [hr, hB, hsplitB]
      simp
    · rw [hr]
      constructor
      · intro h; simp at h
      · rintro ⟨q, hq, _⟩
        exact absurd hq (hs q)
  · intro t ht hsp
    have hs := stringsSplit_bearer t hsp
    have hne : "Bearer " ++ t ≠ "" := by
      intro e
      have := congrArg String.data e
      simp only [String.data_append] at this
      exact absurd this (by simp [show "Bearer ".data = ['B', 'e', 'a', 'r', 'e', 'r', ' '] from rfl])
    rcases getTokenFromHeader_cases ("Bearer " ++ t) with ⟨h0, _⟩ | ⟨_, p1, hs', _, hr⟩ |
      ⟨hB, _⟩ | ⟨_, hs', _⟩
    · exact absurd h0 hne
    · rw [hs] at hs'
      simp only [List.cons.injEq, true_and, and_true] at hs'
      rw [hr, hs']
    · rw [hB, hsplitB] at hs
      simp only [List.cons.injEq, true_and, and_true] at hs
      exact absurd hs.symm ht
    · exact absurd hs (hs' t)
  · intro h0
    subst h0; rfl
  · constructor
    · intro h
      rcases getTokenFromHeader_cases header with ⟨_, hr⟩ | ⟨_, p1, _, _, hr⟩ |
        ⟨hB, _⟩ | ⟨_, _, hr⟩
      · rw [hr] at h; exact absurd h (by decide)
      · rw [hr] at h; simp at h
      · exact hB
      · rw [hr] at h; exact absurd h (by decide)
    · intro h; subst h; rfl
  · intro h0 hB hnot
    rcases getTokenFromHeader_cases header with ⟨h0', _⟩ | ⟨_, p1, hs, hp1, _⟩ |
      ⟨hB', _⟩ | ⟨_, _, hr⟩
    · exact absurd h0' h0
    · exact absurd ⟨p1, hs, hp1⟩ hnot
    · exact absurd hB' hB
    · exact hr
  · intro e he
    rcases getTokenFromHeader_cases header with ⟨_, hr⟩ | ⟨_, p1, _, _, hr⟩ |
      ⟨_, hr⟩ | ⟨_, _, hr⟩
    · rw [hr] at he ⊢; cases he; exact ⟨rfl, rfl, rfl⟩
    · rw [hr] at he; cases he
    · rw [hr] at he ⊢; cases he; exact ⟨rfl, rfl, rfl⟩
    · rw [hr] at he ⊢; cases he; exact ⟨rfl, rfl, rfl⟩

/-- The four headers of the handler test. -/
theorem getTokenFromHeader_spec_witness :
    getTokenFromHeader ("Bearer " ++ "test_token") = ("test_token", none) ∧
    getTokenFromHeader ""
      = ("", some (NewAPIErrorWithMsg BadAuthHeaderError "empty Authorization header")) ∧
    getTokenFromHeader "Bearer "
      = ("", some (NewAPIErrorWithMsg BadAuthHeaderError "empty token")) ∧
    getTokenFromHeader "Beagr78rer test_token"
      = ("", some (NewAPIErrorWithMsg BadAuthHeaderError "no token")) :=
  ⟨(getTokenFromHeader_spec "").2.1 "test_token" (by decide) (by decide),
   (getTokenFromHeader_spec "").2.2.1 rfl,
   (getTokenFromHeader_spec "Bearer ").2.2.2.1.mpr rfl,
   (getTokenFromHeader_spec "Beagr78rer test_token").2.2.2.2.1 (by decide) (by decide)
     (by
       rintro ⟨p1, h, _⟩
       have h' : stringsSplit "Beagr78rer test_token" ' ' = ["Beagr78rer", "test_token"] := by
         decide
       rw [h'] at h
       simp only [List.cons.injEq] at h
       exact absurd h.1 (by decide))⟩

/-! ### C23 -/

/-- In bytes the check reads as the code has it: `validateAuthInput` returns `nil` exactly
when the username is non-empty and the password has at least 6 bytes. -/
theorem validateAuthInput_bytes (input : AuthInput) :
    validateAuthInput input = none ↔ input.Username ≠ "" ∧ 6 ≤ len input.Password := by
  unfold validateAuthInput
  by_cases h1 : input.Username = ""
  · simp [h1]
  · rw [if_neg h1]
    by_cases h2 : input.Password = ""
    · rw [if_pos h2]
      have : len input.Password = 0 := (len_eq_zero _).mpr h2
      simp [h1, this]
    · rw [if_neg h2]
      by_cases h3 : len input.Password < 6
      · rw [if_pos h3]
        simp only [reduceCtorEq, ne_eq, h1, not_false_eq_true, true_and, false_iff, not_le]
        exact h3
      · rw [if_neg h3]
        simp only [ne_eq, h1, not_false_eq_true, true_and, true_iff]
        omega

/-- C23, at the failing input: the password "ééé" has 3 characters and 6 bytes, and
`validateAuthInput` accepts it, although its own message asks for at least 6
characters; the ASCII password "1234" is refused with that message. -/
theorem validateAuthInput_counts_bytes :
    "ééé".length = 3 ∧ len "ééé" = 6 ∧
    validateAuthInput ⟨"Ivan", "ééé"⟩ = none ∧
    validateAuthInput ⟨"Ivan", "1234"⟩ = some (NewAPIErrorWithMsg InvalidAuthInput
      "password is too short, it must be at least 6 characters long") := by
  decide

/-! ## The password hash -/

theorem hexChars_append (a b : List Nat) : hexChars (a ++ b) = hexChars a ++ hexChars b := by
  induction a with
  | nil => rfl
  | cons x xs ih => simp [hexChars, ih]

theorem hexChars_length (a : List Nat) : (hexChars a).length = 2 * a.length := by
  induction a with
  | nil => rfl
  | cons x xs ih => simp [hexChars, ih]; omega

theorem hexDigit_mem (n : Nat) : hexDigit n ∈ "0123456789abcdef".toList := by
  unfold hexDigit
  have h : n % 16 < 16 := Nat.mod_lt _ (by decide)
  generalize n % 16 = k at h
  interval_cases k <;> decide

theorem hexChars_mem (a : List Nat) : ∀ c ∈ hexChars a, c ∈ "0123456789abcdef".toList := by
  induction a with
  | nil => intro c hc; cases hc
  | cons x xs ih =>
    intro c hc
    simp only [hexChars, List.mem_cons] at hc
    rcases hc with rfl | rfl | hc
    · exact hexDigit_mem _
    · exact hexDigit_mem _
    · exact ih c hc

/-- C25: `generatePasswordHash` is a function of the password and the salt, so two calls
with the same password and salt return the same hash; with a non-empty salt it
returns no error; with the empty salt it returns the empty string and an
`InternalError` (status 500) with the detail "salt is empty", for every password; so
it fails exactly on the empty salt. -/
theorem generatePasswordHash_deterministic (digest : List Nat → List Nat)
    (salt password : String) :
    (∀ salt' password', salt' = salt → password' = password →
      generatePasswordHash digest salt' password'
        = generatePasswordHash digest salt password) ∧
    (salt ≠ "" → (generatePasswordHash digest salt password).2 = none) ∧
    (salt = "" →
      generatePasswordHash digest salt password
        = ("", some (NewAPIErrorWithMsg InternalError "salt is empty")) ∧
      GetAPIError (NewAPIErrorWithMsg InternalError "salt is empty") = ⟨500, "internal error"⟩ ∧
      (NewAPIErrorWithMsg InternalError "salt is empty").Error
        = "internal error: salt is empty") ∧
    ((generatePasswordHash digest salt password).2 ≠ none ↔ salt = "") := by
  refine ⟨?_, ?_, ?_, ?_⟩
  · rintro salt' password' rfl rfl; rfl
  · intro h
    simp only [generatePasswordHash, h, if_false]
  · intro h
    refine ⟨?_, rfl, by decide⟩
    simp only [generatePasswordHash, h, if_true]
  · by_cases h : salt = ""
    · simp [generatePasswordHash, h]
    · simp [generatePasswordHash, h]

/-- The scenario of the service test: with the salt "jngvurj" the hash of "username" comes
without an error, and with the empty salt the error is "salt is empty". -/
theorem generatePasswordHash_deterministic_witness :
    (generatePasswordHash (fun _ => List.replicate 32 171) "jngvurj" "username").2 = none ∧
    generatePasswordHash (fun _ => List.replicate 32 171) "" "username"
      = ("", some (NewAPIErrorWithMsg InternalError "salt is empty")) :=
  ⟨(generatePasswordHash_deterministic _ "jngvurj" "username").2.1 (by decide),
   ((generatePasswordHash_deterministic _ "" "username").2.2.1 rfl).1⟩

/-- C30: for a non-empty salt and a digest function of 32 bytes, `generatePasswordHash`
returns the lowercase hexadecimal digits of the bytes of the salt followed by those of
the digest of the password alone: the result has `2 * (len salt + 32)` characters,
begins with the digits of the salt, and its last 64 characters are the digits of the
digest of the password, the same for every salt. -/
theorem generatePasswordHash_salt_not_mixed (digest : List Nat → List Nat)
    (hdigest : ∀ m, (digest m).length = 32) (salt password : String) (hsalt : salt ≠ "") :
    (generatePasswordHash digest salt password).1
      = String.mk (hexChars (utf8Bytes salt) ++ hexChars (digest (utf8Bytes password))) ∧
    (generatePasswordHash digest salt password).2 = none ∧
    (generatePasswordHash digest salt password).1.length = 2 * (len salt + 32) ∧
    hexChars (utf8Bytes salt) <+: (generatePasswordHash digest salt password).1.toList ∧
    (∀ c ∈ (generatePasswordHash digest salt password).1.toList,
      c ∈ "0123456789abcdef".toList) ∧
    (generatePasswordHash digest salt password).1.toList.drop (2 * len salt)
      = hexChars (digest (utf8Bytes password)) ∧
    (hexChars (digest (utf8Bytes password))).length = 64 ∧
    (∀ salt₂ : String, salt₂ ≠ "" →
      (generatePasswordHash digest salt password).1.toList.drop
          ((generatePasswordHash digest salt password).1.length - 64)
        = (generatePasswordHash digest salt₂ password).1.toList.drop
          ((generatePasswordHash digest salt₂ password).1.length - 64)) := by
  have hrun : ∀ s : String, s ≠ "" → generatePasswordHash digest s password
      = (String.mk (hexChars (utf8Bytes s) ++ hexChars (digest (utf8Bytes password))), none) := by
    intro s hs
    simp only [generatePasswordHash, hs, if_false, hexChars_append]
  have h64 : (hexChars (digest (utf8Bytes password))).length = 64 := by
    rw [hexChars_length, hdigest]
  have hlen : ∀ s : String, (hexChars (utf8Bytes s)).length = 2 * len s := by
    intro s; rw [hexChars_length]; rfl
  have hlast : ∀ s : String, s ≠ "" →
      (generatePasswordHash digest s password).1.toList.drop
          ((generatePasswordHash digest s password).1.length - 64)
        = hexChars (digest (utf8Bytes password)) := by
    intro s hs
    rw [hrun s hs]
    simp only [String.length, String.toList, List.length_append, h64, Nat.add_sub_cancel]
    exact List.drop_left' rfl
  rw [hrun salt hsalt]
  refine ⟨rfl, rfl, ?_, ?_, ?_, ?_, h64, ?_⟩
  · simp only [String.length, List.length_append, h64, hlen]
    omega
  · exact List.prefix_append _ _
  · intro c hc
    simp only [String.toList, List.mem_append] at hc
    rcases hc with hc | hc
    · exact hexChars_mem _ c hc
    · exact hexChars_mem _ c hc
  · simp only [String.toList]
    exact List.drop_left' (hlen salt)
  · intro salt₂ h2
    rw [← hrun salt hsalt, hlast salt hsalt, hlast salt₂ h2]

/-- With the salt "ab" and a digest of 32 bytes `0xab`, the hash of "pw" is "6162", the
digits of the salt, followed by 64 digits of the digest. -/
theorem generatePasswordHash_salt_not_mixed_witness :
    (generatePasswordHash (fun _ => List.replicate 32 171) "ab" "pw").1
      = String.mk (hexChars (utf8Bytes "ab") ++
          hexChars ((fun _ => List.replicate 32 171) (utf8Bytes "pw"))) ∧
    (generatePasswordHash (fun _ => List.replicate 32 171) "ab" "pw").1.length
      = 2 * (len "ab" + 32) :=
  have h := generatePasswordHash_salt_not_mixed (fun _ => List.replicate 32 171)
    (fun _ => by simp) "ab" "pw" (by decide)
  ⟨h.1, h.2.2.1⟩

end AvitoShop
